import Mathlib

/-!
Verification development for the lox interpreter (src/lox.py): a shallow
embedding of the scanner, parser (expression grammar), resolver and
tree-walking evaluator, together with theorems settling the frozen claims.

Modelling conventions:
* Python strings are `List Char`; slicing is `List.drop`/`List.take`.
* Python numbers: `int` is `Int`, `float` is carried as a rational `ℚ`
  (IEEE-754 rounding and float formatting are not modelled; no claim
  depends on float rounding, only on the dynamic type of results).
* Loops and recursion are fuel-indexed structural recursion on `Nat`;
  fuel exhaustion is a distinguished outcome that models nontermination
  or exceeding the host recursion limit, and concrete runs are evaluated
  with ample fuel.
* Python exceptions (runtime errors and the break/continue/return
  control-flow signals) are threaded as an explicit sum outcome; the
  interpreter heap (environment frames) travels with the outcome, since
  Python exceptions do not roll back mutations.
* Error messages are represented by dedicated constructors, one per
  `raise` site of the source, rather than by message strings.
-/

namespace Lox

/-- Token tags, mirroring `TokenType` of the source (src/lox.py lines 9-69). -/
inductive TokenType where
  | LEFT_PAREN | RIGHT_PAREN | LEFT_BRACE | RIGHT_BRACE
  | COMMA | DOT
  | MINUS | MINUS_EQUAL | MINUS_MINUS
  | PLUS | PLUS_EQUAL | PLUS_PLUS
  | SEMICOLON
  | SLASH | SLASH_EQUAL
  | STAR | STAR_EQUAL
  | QUESTION | COLON
  | BANG | BANG_EQUAL
  | EQUAL | EQUAL_EQUAL
  | GREATER | GREATER_EQUAL
  | LESS | LESS_EQUAL
  | IDENTIFIER | STRING | NUMBER
  | AND | BREAK | CLASS | CONTINUE | ELSE | FALSE | FUN | FOR | IF | NIL | OR
  | PRINT | RETURN | SUPER | THIS | TRUE | VAR | WHILE
  | EOF
deriving DecidableEq, Repr

/-- Literal payload of a token: a number (int or float) or a string. -/
inductive TokLit where
  | num (n : Int)
  | fnum (q : ℚ)
  | str (s : List Char)
deriving DecidableEq, Repr

/-- A scanned token, mirroring class `Token` (lines 94-118): tag, lexeme,
optional literal, 1-based line, and column (an `Int`, because the EOF token
records column -1). -/
structure Token where
  type : TokenType
  lexeme : List Char
  literal : Option TokLit
  line : Nat
  column : Int
deriving DecidableEq, Repr

/-- The keyword table `KEYWORDS` (lines 72-91). -/
def KEYWORDS : List (List Char × TokenType) :=
  [ (['a','n','d'], .AND)
  , (['b','r','e','a','k'], .BREAK)
  , (['c','l','a','s','s'], .CLASS)
  , (['c','o','n','t','i','n','u','e'], .CONTINUE)
  , (['e','l','s','e'], .ELSE)
  , (['f','a','l','s','e'], .FALSE)
  , (['f','o','r'], .FOR)
  , (['f','u','n'], .FUN)
  , (['i','f'], .IF)
  , (['n','i','l'], .NIL)
  , (['o','r'], .OR)
  , (['p','r','i','n','t'], .PRINT)
  , (['r','e','t','u','r','n'], .RETURN)
  , (['s','u','p','e','r'], .SUPER)
  , (['t','h','i','s'], .THIS)
  , (['t','r','u','e'], .TRUE)
  , (['v','a','r'], .VAR)
  , (['w','h','i','l','e'], .WHILE) ]

/-- Scanner state: accumulated tokens plus the `start`, `current` and `line`
cursors of class `Scanner` (lines 131-141).  The source is passed separately. -/
structure ScSt where
  tokens : List Token
  start : Nat
  current : Nat
  line : Nat
deriving Repr

/-- Fatal scanner error ("Unterminated string", raised at line 177). -/
structure ScanErr where
  line : Nat
  offset : Nat
deriving DecidableEq, Repr

/-- Python slice `source[a:b]`. -/
def slice (src : List Char) (a b : Nat) : List Char :=
  (src.drop a).take (b - a)

def nullChar : Char := Char.ofNat 0

/-- `is_at_end` (line 143). -/
def scAtEnd (src : List Char) (σ : ScSt) : Bool :=
  decide (src.length ≤ σ.current)

/-- `peek` (line 145): current character, or NUL at end. -/
def scPeek (src : List Char) (σ : ScSt) : Char :=
  if scAtEnd src σ then nullChar else src.getD σ.current nullChar

/-- `peek_next` (line 146). -/
def scPeekNext (src : List Char) (σ : ScSt) : Char :=
  if src.length ≤ σ.current + 1 then nullChar else src.getD (σ.current + 1) nullChar

/-- `match` (lines 154-159): conditionally consume an expected character. -/
def scMatch (src : List Char) (σ : ScSt) (expected : Char) : Bool × ScSt :=
  if scAtEnd src σ then (false, σ)
  else if src.getD σ.current nullChar ≠ expected then (false, σ)
  else (true, { σ with current := σ.current + 1 })

/-- `add_token` (lines 202-205): the lexeme is the source slice from `start`
to `current`, and the recorded column is the value of `start`. -/
def addToken (src : List Char) (σ : ScSt) (ty : TokenType) (lit : Option TokLit) : ScSt :=
  { σ with tokens := σ.tokens ++ [⟨ty, slice src σ.start σ.current, lit, σ.line, (σ.start : Int)⟩] }

/-- The `while` loop of `string` (lines 172-174): advance to the closing
quote or end of input, bumping `line` at embedded newlines. -/
def stringBody (src : List Char) : Nat → ScSt → ScSt
  | 0, σ => σ
  | fuel + 1, σ =>
    if scPeek src σ ≠ '"' ∧ scAtEnd src σ = false then
      stringBody src fuel
        { σ with line := if scPeek src σ = '\n' then σ.line + 1 else σ.line
               , current := σ.current + 1 }
    else σ

/-- `string` (lines 170-182). -/
def scanString (src : List Char) (σ : ScSt) : Except ScanErr ScSt :=
  let σ1 := stringBody src (src.length + 1) σ
  if scAtEnd src σ1 then .error ⟨σ1.line, σ1.start⟩
  else
    let σ2 := { σ1 with current := σ1.current + 1 }
    let value := slice src (σ2.start + 1) (σ2.current - 1)
    .ok (addToken src σ2 .STRING (some (.str value)))

/-- The digit-consuming loops of `number` (lines 186-188). -/
def digitsBody (src : List Char) : Nat → ScSt → ScSt
  | 0, σ => σ
  | fuel + 1, σ =>
    if (scPeek src σ).isDigit then
      digitsBody src fuel { σ with current := σ.current + 1 }
    else σ

/-- Parse a run of decimal digits as a natural number. -/
def digitsToNat (cs : List Char) : Nat :=
  cs.foldl (fun acc c => 10 * acc + (c.toNat - ('0').toNat)) 0

/-- Value of a dotted numeric lexeme as an exact rational (`float(value)` of
line 190; IEEE-754 rounding is not modelled). -/
def floatOfLexeme (cs : List Char) : ℚ :=
  let ip := cs.takeWhile (· ≠ '.')
  let fp := (cs.dropWhile (· ≠ '.')).drop 1
  (digitsToNat ip : ℚ) + (digitsToNat fp : ℚ) / ((10 : ℚ) ^ fp.length)

/-- `number` (lines 184-191). -/
def scanNumber (src : List Char) (σ : ScSt) : ScSt :=
  let σ1 := digitsBody src (src.length + 1) σ
  let σ2 :=
    if scPeek src σ1 = '.' ∧ (scPeekNext src σ1).isDigit then
      { σ1 with current := σ1.current + 1 }
    else σ1
  let σ3 := digitsBody src (src.length + 1) σ2
  let lex := slice src σ3.start σ3.current
  let lit : TokLit :=
    if ('.') ∈ lex then .fnum (floatOfLexeme lex) else .num (digitsToNat lex : Int)
  addToken src σ3 .NUMBER (some lit)

/-- The identifier-consuming loop of `identifier` (line 195). -/
def identBody (src : List Char) : Nat → ScSt → ScSt
  | 0, σ => σ
  | fuel + 1, σ =>
    if (scPeek src σ).isAlphanum ∨ scPeek src σ = '_' then
      identBody src fuel { σ with current := σ.current + 1 }
    else σ

/-- `identifier` (lines 193-200): keyword lookup, else IDENTIFIER. -/
def scanIdentifier (src : List Char) (σ : ScSt) : ScSt :=
  let σ1 := identBody src (src.length + 1) σ
  let value := slice src σ1.start σ1.current
  match KEYWORDS.lookup value with
  | some k => addToken src σ1 k none
  | none => addToken src σ1 .IDENTIFIER none

/-- The comment-skipping loop of `scan_token` (line 245). -/
def commentBody (src : List Char) : Nat → ScSt → ScSt
  | 0, σ => σ
  | fuel + 1, σ =>
    if scPeek src σ ≠ '\n' ∧ scAtEnd src σ = false then
      commentBody src fuel { σ with current := σ.current + 1 }
    else σ

/-- Python `c.isidentifier()` for a single character, restricted to ASCII. -/
def isIdentStart (c : Char) : Bool := c.isAlpha ∨ c = '_'

/-- `scan_token` (lines 207-259).  The non-fatal "Unexpected character"
diagnostic only prints in the source and scanning continues, so it leaves
the state unchanged beyond the consumed character. -/
def scanToken (src : List Char) (σ : ScSt) : Except ScanErr ScSt :=
  let c := src.getD σ.current nullChar
  let σ0 : ScSt := { σ with current := σ.current + 1 }
  if c = '(' then .ok (addToken src σ0 .LEFT_PAREN none)
  else if c = ')' then .ok (addToken src σ0 .RIGHT_PAREN none)
  else if c = '{' then .ok (addToken src σ0 .LEFT_BRACE none)
  else if c = '}' then .ok (addToken src σ0 .RIGHT_BRACE none)
  else if c = ',' then .ok (addToken src σ0 .COMMA none)
  else if c = '?' then .ok (addToken src σ0 .QUESTION none)
  else if c = ':' then .ok (addToken src σ0 .COLON none)
  else if c = '.' then .ok (addToken src σ0 .DOT none)
  else if c = '-' then
    let r1 := scMatch src σ0 '='
    if r1.1 then .ok (addToken src r1.2 .MINUS_EQUAL none)
    else
      let r2 := scMatch src r1.2 '-'
      if r2.1 then .ok (addToken src r2.2 .MINUS_MINUS none)
      else .ok (addToken src r2.2 .MINUS none)
  else if c = '+' then
    let r1 := scMatch src σ0 '='
    if r1.1 then .ok (addToken src r1.2 .PLUS_EQUAL none)
    else
      let r2 := scMatch src r1.2 '+'
      if r2.1 then .ok (addToken src r2.2 .PLUS_PLUS none)
      else .ok (addToken src r2.2 .PLUS none)
  else if c = ';' then .ok (addToken src σ0 .SEMICOLON none)
  else if c = '*' then
    let r1 := scMatch src σ0 '='
    if r1.1 then .ok (addToken src r1.2 .STAR_EQUAL none)
    else .ok (addToken src r1.2 .STAR none)
  else if c = '!' then
    let r1 := scMatch src σ0 '='
    .ok (addToken src r1.2 (if r1.1 then .BANG_EQUAL else .BANG) none)
  else if c = '=' then
    let r1 := scMatch src σ0 '='
    .ok (addToken src r1.2 (if r1.1 then .EQUAL_EQUAL else .EQUAL) none)
  else if c = '<' then
    let r1 := scMatch src σ0 '='
    .ok (addToken src r1.2 (if r1.1 then .LESS_EQUAL else .LESS) none)
  else if c = '>' then
    let r1 := scMatch src σ0 '='
    .ok (addToken src r1.2 (if r1.1 then .GREATER_EQUAL else .GREATER) none)
  else if c = '/' then
    let r1 := scMatch src σ0 '/'
    if r1.1 then .ok (commentBody src (src.length + 1) r1.2)
    else
      let r2 := scMatch src r1.2 '='
      if r2.1 then .ok (addToken src r2.2 .SLASH_EQUAL none)
      else .ok (addToken src r2.2 .SLASH none)
  else if c = ' ' ∨ c = '\t' ∨ c = '\r' then .ok σ0
  else if c = '\n' then .ok { σ0 with line := σ0.line + 1 }
  else if c = '"' then scanString src σ0
  else if c.isDigit then .ok (scanNumber src σ0)
  else if isIdentStart c then .ok (scanIdentifier src σ0)
  else .ok σ0

/-- The scanning loop of `Scanner.__init__` (lines 138-140): while not at
end, set `start := current` and scan one token.  Each `scan_token` consumes
at least one character, so fuel `src.length + 1` is never the binding
constraint. -/
def scanLoopGo (src : List Char) : Nat → ScSt → Except ScanErr ScSt
  | 0, σ => .ok σ
  | fuel + 1, σ =>
    if scAtEnd src σ then .ok σ
    else
      match scanToken src { σ with start := σ.current } with
      | .error e => .error e
      | .ok σ1 => scanLoopGo src fuel σ1

/-- `Scanner.__init__` (lines 131-141): scan the whole source and append the
final EOF token with column -1. -/
def scanSource (src : List Char) : Except ScanErr (List Token) :=
  match scanLoopGo src (src.length + 1) ⟨[], 0, 0, 1⟩ with
  | .error e => .error e
  | .ok σ => .ok (σ.tokens ++ [⟨.EOF, [], none, σ.line, -1⟩])

/-- Literal payload of a `Literal` AST node: the Python value stored by the
parser (None, bool, int, float or str). -/
inductive LitV where
  | nilL
  | boolL (b : Bool)
  | intL (n : Int)
  | floatL (q : ℚ)
  | strL (s : List Char)
deriving DecidableEq, Repr

/-- Expression AST, mirroring the `Expr` subclasses of the source
(lines 287-377).  The class-based Get/Set/Super/This variants are part of
the grammar vocabulary but outside the evaluated core and are omitted. -/
inductive Expr where
  | literal (value : LitV)
  | grouping (expression : Expr)
  | unary (operator : Token) (right : Expr)
  | binary (left : Expr) (operator : Token) (right : Expr)
  | logical (left : Expr) (operator : Token) (right : Expr)
  | conditional (expression : Expr) (left : Expr) (right : Expr)
  | variableE (name : Token)
  | assign (name : Token) (value : Expr)
  | call (callee : Expr) (paren : Token) (arguments : List Expr)
deriving Repr

mutual

/-- Structural equality of expressions, mirroring the structural
`Expr.__eq__` of the source (lines 267-270), which compares the class and
all fields recursively. -/
def beqExpr : Expr → Expr → Bool
  | .literal v1, .literal v2 => v1 == v2
  | .grouping e1, .grouping e2 => beqExpr e1 e2
  | .unary o1 r1, .unary o2 r2 => o1 == o2 && beqExpr r1 r2
  | .binary l1 o1 r1, .binary l2 o2 r2 => beqExpr l1 l2 && o1 == o2 && beqExpr r1 r2
  | .logical l1 o1 r1, .logical l2 o2 r2 => beqExpr l1 l2 && o1 == o2 && beqExpr r1 r2
  | .conditional c1 a1 b1, .conditional c2 a2 b2 =>
    beqExpr c1 c2 && beqExpr a1 a2 && beqExpr b1 b2
  | .variableE n1, .variableE n2 => n1 == n2
  | .assign n1 v1, .assign n2 v2 => n1 == n2 && beqExpr v1 v2
  | .call c1 p1 a1, .call c2 p2 a2 => beqExpr c1 c2 && p1 == p2 && beqExprs a1 a2
  | _, _ => false

def beqExprs : List Expr → List Expr → Bool
  | [], [] => true
  | x :: xs, y :: ys => beqExpr x y && beqExprs xs ys
  | _, _ => false

end

instance : BEq Expr := ⟨beqExpr⟩

/-- Statement AST, mirroring the `Stmt` subclasses (lines 379-461).
`forExpression` mirrors class `ForExpression`, the marker subclass of
`Expression` used for desugared for-loop increments. -/
inductive Stmt where
  | expression (e : Expr)
  | forExpression (e : Expr)
  | print (e : Expr)
  | varDecl (name : Token) (initializer : Option Expr)
  | block (statements : List Stmt)
  | ifS (condition : Expr) (thenBranch : Stmt) (elseBranch : Option Stmt)
  | functionS (name : Token) (params : List Token) (body : List Stmt)
  | returnS (keyword : Token) (value : Option Expr)
  | whileS (condition : Expr) (body : Stmt)
  | breakS
  | continueS
deriving BEq, Repr

/-- The desugaring performed by `Parser.for_statement` after its clauses are
parsed (lines 643-658): append the increment as a trailing `ForExpression`
inside a block, default the condition to `true`, wrap in `While`, and wrap
with the initializer in an outer block. -/
def forDesugar (initializer : Option Stmt) (condition : Option Expr)
    (increment : Option Expr) (body : Stmt) : Stmt :=
  let body1 := match increment with
    | some inc => Stmt.block [body, .forExpression inc]
    | none => body
  let cond1 := match condition with
    | some c => c
    | none => Expr.literal (.boolL true)
  let body2 := Stmt.whileS cond1 body1
  match initializer with
  | some i => Stmt.block [i, body2]
  | none => body2

/-! ### Parser (expression grammar)

The recursive-descent expression parser of class `Parser` (lines 463-909),
embedded as one fuel-indexed function over a request type with one
constructor per parser method (and one per `while` loop inside a method).
Statement-level parsing is not needed by the claims; the for-statement
desugaring is `forDesugar` above. -/

/-- Parser cursor (fields `tokens` and `current` of `Parser`). -/
structure PState where
  tokens : List Token
  current : Nat
deriving Repr

/-- One constructor per distinct parser diagnostic reachable from the
expression grammar, plus `hostAttr` for the `expr.name` attribute access in
`term`/`factor` on a non-Variable (a Python `AttributeError`), and `fuelOut`
for exhausted fuel. -/
inductive PMsg where
  | missingLeftOperand
  | expressionExpected
  | invalidAssignTarget
  | expectRightParenExpr
  | expectColonConditional
  | tooManyArguments
  | expectRightParenArgs
  | hostAttr
  | fuelOut
deriving DecidableEq, Repr

/-- A raised `ParserError` (method `error`, lines 698-703): the offending
token's line and lexeme, whether it was EOF, and the message. -/
structure PErr where
  line : Nat
  lexeme : List Char
  atEOF : Bool
  msg : PMsg
deriving DecidableEq, Repr

def defaultToken : Token := ⟨.EOF, [], none, 0, -1⟩

/-- `peek` (line 503). -/
def pPeek (σ : PState) : Token := σ.tokens.getD σ.current defaultToken

/-- `previous` (line 502). -/
def pPrevious (σ : PState) : Token := σ.tokens.getD (σ.current - 1) defaultToken

/-- `is_at_end` (line 504). -/
def pIsAtEnd (σ : PState) : Bool := decide ((pPeek σ).type = TokenType.EOF)

/-- `check` (lines 711-714). -/
def pCheck (σ : PState) (ty : TokenType) : Bool :=
  if pIsAtEnd σ then false else decide ((pPeek σ).type = ty)

/-- `advance` (lines 705-709). -/
def pAdvance (σ : PState) : PState :=
  if pIsAtEnd σ then σ else { σ with current := σ.current + 1 }

/-- `match` (lines 716-722): consume the current token if its type is any of
the given types. -/
def pMatch (σ : PState) (types : List TokenType) : Bool × PState :=
  match types with
  | [] => (false, σ)
  | t :: rest => if pCheck σ t then (true, pAdvance σ) else pMatch σ rest

/-- Build the `ParserError` raised by `error` (lines 698-703). -/
def mkPErr (t : Token) (m : PMsg) : PErr :=
  ⟨t.line, t.lexeme, decide (t.type = TokenType.EOF), m⟩

/-- `error` always raises, so it can be used at any result type; the source's
dead code after a raise is kept by binding the impossible `Empty` value. -/
def pErrEmpty (t : Token) (m : PMsg) : Except PErr Empty :=
  .error (mkPErr t m)

/-- `consume` (lines 906-909): return the expected token or raise. -/
def pConsume (σ : PState) (ty : TokenType) (m : PMsg) : Except PErr (Token × PState) :=
  if pCheck σ ty then .ok (pPrevious (pAdvance σ), pAdvance σ)
  else .error (mkPErr (pPeek σ) m)

/-- Requests for the expression parser: each parser method, and each `while`
loop inside a method (carrying its accumulated expression). -/
inductive PReq where
  | expressionR
  | assignmentR
  | conditionalR
  | logicOrR
  | logicOrLoop (acc : Expr)
  | logicAndR
  | logicAndLoop (acc : Expr)
  | equalityR
  | equalityLoop (acc : Expr)
  | comparisonR
  | comparisonLoop (acc : Expr)
  | termR
  | termLoopA (acc : Expr)
  | termLoopB (acc : Expr)
  | termLoopC (acc : Expr)
  | factorR
  | factorLoopA (acc : Expr)
  | factorLoopB (acc : Expr)
  | unaryR
  | callR
  | callLoop (acc : Expr)
  | finishCallR (callee : Expr)
  | argsLoop (acc : List Expr)
  | primaryR
deriving Repr

/-- Parser results: a single expression, or the argument list built by the
`finish_call` loop. -/
inductive PAns where
  | one (e : Expr)
  | many (es : List Expr)
deriving Repr

/-! `primary` (lines 863-904), parameterized by the recursive entry point
`rec` of the parser (the sub-parsers it invokes).  The method is a sequence
of early-return blocks; each block is its own definition here, falling
through to the next, so `primaryBody` below is the whole method.  In the
error productions (lines 883-902) `error` raises, so the sub-parser call
and the `return None` after it are dead code in the source; the dead calls
are kept after the impossible `Empty` bind. -/

abbrev PRec := PReq → PState → Except PErr (PAns × PState)

/-- primary, lines 899-904: `( "/" | "*" ) factor` error production, then
the final "Expression expected" error. -/
def primaryErrFactor (rec : PRec) (σ : PState) : Except PErr (PAns × PState) :=
  let (m, σ1) := pMatch σ [.SLASH, .STAR]
  if m then
    match pErrEmpty (pPeek σ1) .missingLeftOperand with
    | .error e => .error e
    | .ok emp =>
      match rec .factorR σ1 with
      | _ => Empty.elim emp
  else .error (mkPErr (pPeek σ1) .expressionExpected)

/-- primary, lines 894-897: leading `+` error production. -/
def primaryErrTerm (rec : PRec) (σ : PState) : Except PErr (PAns × PState) :=
  let (m, σ1) := pMatch σ [.PLUS]
  if m then
    match pErrEmpty (pPeek σ1) .missingLeftOperand with
    | .error e => .error e
    | .ok emp =>
      match rec .termR σ1 with
      | _ => Empty.elim emp
  else primaryErrFactor rec σ1

/-- primary, lines 889-892: leading comparison-operator error production. -/
def primaryErrComparison (rec : PRec) (σ : PState) : Except PErr (PAns × PState) :=
  let (m, σ1) := pMatch σ [.GREATER, .GREATER_EQUAL, .LESS, .LESS_EQUAL]
  if m then
    match pErrEmpty (pPeek σ1) .missingLeftOperand with
    | .error e => .error e
    | .ok emp =>
      match rec .comparisonR σ1 with
      | _ => Empty.elim emp
  else primaryErrTerm rec σ1

/-- primary, lines 884-887: leading `!=` / `==` error production. -/
def primaryErrEquality (rec : PRec) (σ : PState) : Except PErr (PAns × PState) :=
  let (m, σ1) := pMatch σ [.BANG_EQUAL, .EQUAL_EQUAL]
  if m then
    match pErrEmpty (pPeek σ1) .missingLeftOperand with
    | .error e => .error e
    | .ok emp =>
      match rec .equalityR σ1 with
      | _ => Empty.elim emp
  else primaryErrComparison rec σ1

/-- primary, lines 880-881: IDENTIFIER. -/
def primaryIdent (rec : PRec) (σ : PState) : Except PErr (PAns × PState) :=
  let (m, σ1) := pMatch σ [.IDENTIFIER]
  if m then .ok (.one (.variableE (pPrevious σ1)), σ1)
  else primaryErrEquality rec σ1

/-- primary, lines 875-878: parenthesised expression. -/
def primaryParen (rec : PRec) (σ : PState) : Except PErr (PAns × PState) :=
  let (m, σ1) := pMatch σ [.LEFT_PAREN]
  if m then
    match rec .expressionR σ1 with
    | .error e => .error e
    | .ok (.many _, σ2) => .error (mkPErr (pPeek σ2) .hostAttr)
    | .ok (.one expr, σ2) =>
      match pConsume σ2 .RIGHT_PAREN .expectRightParenExpr with
      | .error e => .error e
      | .ok (_, σ3) => .ok (.one (.grouping expr), σ3)
  else primaryIdent rec σ1

/-- primary, lines 872-873: NUMBER and STRING literals. -/
def primaryNumStr (rec : PRec) (σ : PState) : Except PErr (PAns × PState) :=
  let (m, σ1) := pMatch σ [.NUMBER, .STRING]
  if m then
    let lit : LitV :=
      match (pPrevious σ1).literal with
      | some (.num n) => .intL n
      | some (.fnum q) => .floatL q
      | some (.str s) => .strL s
      | none => .nilL
    .ok (.one (.literal lit), σ1)
  else primaryParen rec σ1

/-- primary, line 870: `nil`. -/
def primaryNil (rec : PRec) (σ : PState) : Except PErr (PAns × PState) :=
  let (m, σ1) := pMatch σ [.NIL]
  if m then .ok (.one (.literal .nilL), σ1)
  else primaryNumStr rec σ1

/-- primary, line 869: `true`. -/
def primaryTrue (rec : PRec) (σ : PState) : Except PErr (PAns × PState) :=
  let (m, σ1) := pMatch σ [.TRUE]
  if m then .ok (.one (.literal (.boolL true)), σ1)
  else primaryNil rec σ1

/-- primary, line 868 onward: `false`, then all following blocks. -/
def primaryBody (rec : PRec) (σ : PState) : Except PErr (PAns × PState) :=
  let (m, σ1) := pMatch σ [.FALSE]
  if m then .ok (.one (.literal (.boolL false)), σ1)
  else primaryTrue rec σ1

/-- The expression parser (methods `expression` through `primary`,
lines 724-904), as fuel-indexed structural recursion. -/
def parseGo (src0 : Unit) : Nat → PReq → PState → Except PErr (PAns × PState)
  | 0, _, σ => .error (mkPErr (pPeek σ) .fuelOut)
  | fuel + 1, req, σ =>
    match req with
    | .expressionR =>
      -- expression (lines 724-738)
      match parseGo src0 fuel .assignmentR σ with
      | .error e => .error e
      | .ok (.many _, σ1) => .error (mkPErr (pPeek σ1) .hostAttr)
      | .ok (.one expr, σ1) =>
        let (m, σ2) := pMatch σ1 [.EQUAL]
        if m then
          let equals := pPrevious σ2
          match parseGo src0 fuel .assignmentR σ2 with
          | .error e => .error e
          | .ok (.many _, σ3) => .error (mkPErr (pPeek σ3) .hostAttr)
          | .ok (.one value, σ3) =>
            match expr with
            | .variableE name => .ok (.one (.assign name value), σ3)
            | _ => .error (mkPErr equals .invalidAssignTarget)
        else .ok (.one expr, σ2)
    | .assignmentR =>
      -- assignment (lines 740-745): just conditional
      parseGo src0 fuel .conditionalR σ
    | .conditionalR =>
      -- conditional (lines 747-756)
      match parseGo src0 fuel .logicOrR σ with
      | .error e => .error e
      | .ok (.many _, σ1) => .error (mkPErr (pPeek σ1) .hostAttr)
      | .ok (.one expr, σ1) =>
        let (m, σ2) := pMatch σ1 [.QUESTION]
        if m then
          match parseGo src0 fuel .expressionR σ2 with
          | .error e => .error e
          | .ok (.many _, σ3) => .error (mkPErr (pPeek σ3) .hostAttr)
          | .ok (.one thenBr, σ3) =>
            match pConsume σ3 .COLON .expectColonConditional with
            | .error e => .error e
            | .ok (_, σ4) =>
              match parseGo src0 fuel .conditionalR σ4 with
              | .error e => .error e
              | .ok (.many _, σ5) => .error (mkPErr (pPeek σ5) .hostAttr)
              | .ok (.one elseBr, σ5) => .ok (.one (.conditional expr thenBr elseBr), σ5)
        else .ok (.one expr, σ2)
    | .logicOrR =>
      -- logic_or (lines 758-765)
      match parseGo src0 fuel .logicAndR σ with
      | .error e => .error e
      | .ok (.many _, σ1) => .error (mkPErr (pPeek σ1) .hostAttr)
      | .ok (.one expr, σ1) => parseGo src0 fuel (.logicOrLoop expr) σ1
    | .logicOrLoop acc =>
      let (m, σ1) := pMatch σ [.OR]
      if m then
        let op := pPrevious σ1
        match parseGo src0 fuel .logicAndR σ1 with
        | .error e => .error e
        | .ok (.many _, σ2) => .error (mkPErr (pPeek σ2) .hostAttr)
        | .ok (.one right, σ2) => parseGo src0 fuel (.logicOrLoop (.logical acc op right)) σ2
      else .ok (.one acc, σ1)
    | .logicAndR =>
      -- logic_and (lines 767-774)
      match parseGo src0 fuel .equalityR σ with
      | .error e => .error e
      | .ok (.many _, σ1) => .error (mkPErr (pPeek σ1) .hostAttr)
      | .ok (.one expr, σ1) => parseGo src0 fuel (.logicAndLoop expr) σ1
    | .logicAndLoop acc =>
      let (m, σ1) := pMatch σ [.AND]
      if m then
        let op := pPrevious σ1
        match parseGo src0 fuel .equalityR σ1 with
        | .error e => .error e
        | .ok (.many _, σ2) => .error (mkPErr (pPeek σ2) .hostAttr)
        | .ok (.one right, σ2) => parseGo src0 fuel (.logicAndLoop (.logical acc op right)) σ2
      else .ok (.one acc, σ1)
    | .equalityR =>
      -- equality (lines 776-785)
      match parseGo src0 fuel .comparisonR σ with
      | .error e => .error e
      | .ok (.many _, σ1) => .error (mkPErr (pPeek σ1) .hostAttr)
      | .ok (.one expr, σ1) => parseGo src0 fuel (.equalityLoop expr) σ1
    | .equalityLoop acc =>
      let (m, σ1) := pMatch σ [.BANG_EQUAL, .EQUAL_EQUAL]
      if m then
        let op := pPrevious σ1
        match parseGo src0 fuel .comparisonR σ1 with
        | .error e => .error e
        | .ok (.many _, σ2) => .error (mkPErr (pPeek σ2) .hostAttr)
        | .ok (.one right, σ2) => parseGo src0 fuel (.equalityLoop (.binary acc op right)) σ2
      else .ok (.one acc, σ1)
    | .comparisonR =>
      -- comparison (lines 787-796)
      match parseGo src0 fuel .termR σ with
      | .error e => .error e
      | .ok (.many _, σ1) => .error (mkPErr (pPeek σ1) .hostAttr)
      | .ok (.one expr, σ1) => parseGo src0 fuel (.comparisonLoop expr) σ1
    | .comparisonLoop acc =>
      let (m, σ1) := pMatch σ [.GREATER, .GREATER_EQUAL, .LESS, .LESS_EQUAL]
      if m then
        let op := pPrevious σ1
        match parseGo src0 fuel .termR σ1 with
        | .error e => .error e
        | .ok (.many _, σ2) => .error (mkPErr (pPeek σ2) .hostAttr)
        | .ok (.one right, σ2) => parseGo src0 fuel (.comparisonLoop (.binary acc op right)) σ2
      else .ok (.one acc, σ1)
    | .termR =>
      -- term (lines 798-816): three successive while loops
      match parseGo src0 fuel .factorR σ with
      | .error e => .error e
      | .ok (.many _, σ1) => .error (mkPErr (pPeek σ1) .hostAttr)
      | .ok (.one expr, σ1) => parseGo src0 fuel (.termLoopA expr) σ1
    | .termLoopA acc =>
      -- while match(MINUS_MINUS, PLUS_PLUS): expr = Assign(expr.name, Binary(expr, op, 1))
      let (m, σ1) := pMatch σ [.MINUS_MINUS, .PLUS_PLUS]
      if m then
        let op := pPrevious σ1
        match acc with
        | .variableE name =>
          parseGo src0 fuel (.termLoopA (.assign name (.binary acc op (.literal (.intL 1))))) σ1
        | _ => .error (mkPErr (pPeek σ1) .hostAttr)
      else parseGo src0 fuel (.termLoopB acc) σ1
    | .termLoopB acc =>
      -- while match(MINUS_EQUAL, PLUS_EQUAL): expr = Assign(expr.name, Binary(expr, op, factor()))
      let (m, σ1) := pMatch σ [.MINUS_EQUAL, .PLUS_EQUAL]
      if m then
        let op := pPrevious σ1
        match parseGo src0 fuel .factorR σ1 with
        | .error e => .error e
        | .ok (.many _, σ2) => .error (mkPErr (pPeek σ2) .hostAttr)
        | .ok (.one right, σ2) =>
          match acc with
          | .variableE name =>
            parseGo src0 fuel (.termLoopB (.assign name (.binary acc op right))) σ2
          | _ => .error (mkPErr (pPeek σ2) .hostAttr)
      else parseGo src0 fuel (.termLoopC acc) σ1
    | .termLoopC acc =>
      let (m, σ1) := pMatch σ [.MINUS, .PLUS]
      if m then
        let op := pPrevious σ1
        match parseGo src0 fuel .factorR σ1 with
        | .error e => .error e
        | .ok (.many _, σ2) => .error (mkPErr (pPeek σ2) .hostAttr)
        | .ok (.one right, σ2) => parseGo src0 fuel (.termLoopC (.binary acc op right)) σ2
      else .ok (.one acc, σ1)
    | .factorR =>
      -- factor (lines 818-832): two successive while loops
      match parseGo src0 fuel .unaryR σ with
      | .error e => .error e
      | .ok (.many _, σ1) => .error (mkPErr (pPeek σ1) .hostAttr)
      | .ok (.one expr, σ1) => parseGo src0 fuel (.factorLoopA expr) σ1
    | .factorLoopA acc =>
      let (m, σ1) := pMatch σ [.SLASH_EQUAL, .STAR_EQUAL]
      if m then
        let op := pPrevious σ1
        match parseGo src0 fuel .unaryR σ1 with
        | .error e => .error e
        | .ok (.many _, σ2) => .error (mkPErr (pPeek σ2) .hostAttr)
        | .ok (.one right, σ2) =>
          match acc with
          | .variableE name =>
            parseGo src0 fuel (.factorLoopA (.assign name (.binary acc op right))) σ2
          | _ => .error (mkPErr (pPeek σ2) .hostAttr)
      else parseGo src0 fuel (.factorLoopB acc) σ1
    | .factorLoopB acc =>
      let (m, σ1) := pMatch σ [.SLASH, .STAR]
      if m then
        let op := pPrevious σ1
        match parseGo src0 fuel .unaryR σ1 with
        | .error e => .error e
        | .ok (.many _, σ2) => .error (mkPErr (pPeek σ2) .hostAttr)
        | .ok (.one right, σ2) => parseGo src0 fuel (.factorLoopB (.binary acc op right)) σ2
      else .ok (.one acc, σ1)
    | .unaryR =>
      -- unary (lines 834-842)
      let (m, σ1) := pMatch σ [.BANG, .MINUS]
      if m then
        let op := pPrevious σ1
        match parseGo src0 fuel .unaryR σ1 with
        | .error e => .error e
        | .ok (.many _, σ2) => .error (mkPErr (pPeek σ2) .hostAttr)
        | .ok (.one right, σ2) => .ok (.one (.unary op right), σ2)
      else parseGo src0 fuel .callR σ1
    | .callR =>
      -- call (lines 844-849)
      match parseGo src0 fuel .primaryR σ with
      | .error e => .error e
      | .ok (.many _, σ1) => .error (mkPErr (pPeek σ1) .hostAttr)
      | .ok (.one expr, σ1) => parseGo src0 fuel (.callLoop expr) σ1
    | .callLoop acc =>
      let (m, σ1) := pMatch σ [.LEFT_PAREN]
      if m then
        match parseGo src0 fuel (.finishCallR acc) σ1 with
        | .error e => .error e
        | .ok (.many _, σ2) => .error (mkPErr (pPeek σ2) .hostAttr)
        | .ok (.one expr, σ2) => parseGo src0 fuel (.callLoop expr) σ2
      else .ok (.one acc, σ1)
    | .finishCallR callee =>
      -- finish_call (lines 851-861)
      let buildCall := fun (arguments : List Expr) (σA : PState) =>
        if arguments.length > 255 then
          (.error (mkPErr (pPeek σA) .tooManyArguments) : Except PErr (PAns × PState))
        else
          match pConsume σA .RIGHT_PAREN .expectRightParenArgs with
          | .error e => .error e
          | .ok (paren, σB) => .ok (.one (.call callee paren arguments), σB)
      if pCheck σ .RIGHT_PAREN then buildCall [] σ
      else
        match parseGo src0 fuel .expressionR σ with
        | .error e => .error e
        | .ok (.many _, σ1) => .error (mkPErr (pPeek σ1) .hostAttr)
        | .ok (.one first, σ1) =>
          match parseGo src0 fuel (.argsLoop [first]) σ1 with
          | .error e => .error e
          | .ok (.one _, σ2) => .error (mkPErr (pPeek σ2) .hostAttr)
          | .ok (.many arguments, σ2) => buildCall arguments σ2
    | .argsLoop acc =>
      let (m, σ1) := pMatch σ [.COMMA]
      if m then
        match parseGo src0 fuel .expressionR σ1 with
        | .error e => .error e
        | .ok (.many _, σ2) => .error (mkPErr (pPeek σ2) .hostAttr)
        | .ok (.one e, σ2) => parseGo src0 fuel (.argsLoop (acc ++ [e])) σ2
      else .ok (.many acc, σ1)
    | .primaryR => primaryBody (parseGo src0 fuel) σ

/-! ### Runtime values and environments -/

/-- The two seeded builtins (lines 1198-1199). -/
inductive BuiltinF where
  | clock
  | echo
deriving Repr

/-- Implementation of a callable: a builtin host function, or a user function
(`Interpreter.Function`, lines 1173-1188) holding its declaration and the id
of its closure environment. -/
inductive CallImpl where
  | builtin (b : BuiltinF)
  | user (name : Token) (params : List Token) (body : List Stmt) (closure : Nat)
deriving Repr

/-- Runtime values: Python None/bool/int/float/str used by the evaluator,
plus callables (`Interpreter.Callable`, lines 1160-1171, with `name` and
`arity`). -/
inductive Value where
  | vnil
  | vbool (b : Bool)
  | vint (n : Int)
  | vfloat (q : ℚ)
  | vstr (s : List Char)
  | callable (name : List Char) (arity : Nat) (impl : CallImpl)
deriving Repr

/-- One constructor per runtime-error `raise` site reachable from the
evaluated core. -/
inductive RErr where
  | operandMustBeNumber (tok : Token)      -- check_numbers, single operand
  | operandsMustBeNumbers (tok : Token)    -- check_numbers, two operands
  | operandsNotSupported (tok : Token)     -- `+` on a non-str/int/float (line 1325)
  | divideByZero (tok : Token)             -- line 1334
  | notCallable (tok : Token)              -- "Can only call functions and classes." (line 1279)
  | arityMismatch (expected got : Nat)     -- line 1286
  | undefinedVariable (name : List Char)   -- Environment.get / assign
  | alreadyDefined (name : List Char)      -- Environment.define (line 945)
deriving Repr

/-- Non-value outcomes of evaluation: a runtime error, the three non-local
control-flow exceptions (`BreakException`, `ContinueException`,
`ReturnException`, lines 1148-1158), a host-level crash (a Python exception
such as `AttributeError` that the interpreter does not raise deliberately),
and fuel exhaustion (modelling nontermination / the host recursion limit). -/
inductive ExKind where
  | rerr (e : RErr)
  | brkE
  | contE
  | retE (v : Value)
  | hostCrash
  | fuelOut
deriving Repr

/-- Evaluation result: a value, or a propagating exception. -/
inductive ExRes (α : Type) where
  | ok (a : α)
  | exn (k : ExKind)
deriving Repr

/-- One environment frame (class `Environment`, lines 931-983): an ordered
name→value mapping plus an optional enclosing frame id.  Frames live in the
interpreter heap (`ISt.heap`) so that mutation through shared parent links
behaves as Python object mutation does. -/
structure Frame where
  values : List (List Char × Value)
  enclosing : Option Nat
deriving Repr

/-- Interpreter state (the mutable fields of class `Interpreter`,
lines 1190-1199): the frame heap, the current-environment slot
`self.environment`, the id of `self.globals`, the resolver side table
`self.locals`, the current wall-clock reading used by `clock`, and the
values printed so far (standard output, observed as values). -/
structure ISt where
  heap : List Frame
  environment : Nat
  globalsId : Nat
  locals : List (Expr × Nat)
  nowT : Int
  output : List Value
deriving Repr

/-- Association-list read (Python `dict` lookup by key). -/
def assocGet (l : List (List Char × Value)) (k : List Char) : Option Value :=
  match l.find? (fun p => p.1 == k) with
  | some p => some p.2
  | none => none

/-- Association-list write (Python `dict` assignment: replace or append). -/
def assocSet (l : List (List Char × Value)) (k : List Char) (v : Value) :
    List (List Char × Value) :=
  match l with
  | [] => [(k, v)]
  | p :: rest => if p.1 == k then (k, v) :: rest else p :: assocSet rest k v

/-- `Environment.define` (lines 942-946): raise if the name is already bound
in this frame, else bind it. -/
def frameDefine (heap : List Frame) (envId : Nat) (name : List Char) (v : Value) :
    ExRes (List Frame) :=
  match heap.get? envId with
  | none => .exn .hostCrash
  | some fr =>
    if (assocGet fr.values name).isSome then .exn (.rerr (.alreadyDefined name))
    else .ok (heap.set envId { fr with values := fr.values ++ [(name, v)] })

/-- `Environment.get` (lines 948-955): this frame's binding, else delegate to
the enclosing frame, else "Undefined variable".  Fuel bounds the parent walk
(chains in reachable states are strictly decreasing, so `heap.length + 1`
always suffices). -/
def frameGet (heap : List Frame) : Nat → Nat → List Char → ExRes Value
  | 0, _, _ => .exn .hostCrash
  | fuel + 1, envId, name =>
    match heap.get? envId with
    | none => .exn .hostCrash
    | some fr =>
      match assocGet fr.values name with
      | some v => .ok v
      | none =>
        match fr.enclosing with
        | some p => frameGet heap fuel p name
        | none => .exn (.rerr (.undefinedVariable name))

/-- `Environment.assign` (lines 969-976): mutate this frame's binding if
present, else delegate to the enclosing frame, else "Undefined variable". -/
def frameAssign (heap : List Frame) : Nat → Nat → List Char → Value → ExRes (List Frame)
  | 0, _, _, _ => .exn .hostCrash
  | fuel + 1, envId, name, v =>
    match heap.get? envId with
    | none => .exn .hostCrash
    | some fr =>
      if (assocGet fr.values name).isSome then
        .ok (heap.set envId { fr with values := assocSet fr.values name v })
      else
        match fr.enclosing with
        | some p => frameAssign heap fuel p name v
        | none => .exn (.rerr (.undefinedVariable name))

/-- `Environment.ancestor` (lines 961-967): walk the enclosing chain
`distance` times; `none` models the Python crash of walking past the global
frame (`None.enclosing`). -/
def ancestorId (heap : List Frame) (envId : Nat) : Nat → Option Nat
  | 0 => some envId
  | d + 1 =>
    match (heap.get? envId).bind Frame.enclosing with
    | some p => ancestorId heap p d
    | none => none

/-- `Environment.get_at` (lines 957-959), from the current environment. -/
def getAt (st : ISt) (distance : Nat) (name : List Char) : ExRes Value :=
  match ancestorId st.heap st.environment distance with
  | some eid => frameGet st.heap (st.heap.length + 1) eid name
  | none => .exn .hostCrash

/-- `Environment.assign_at` (lines 978-980), from the current environment. -/
def assignAt (st : ISt) (distance : Nat) (name : List Char) (v : Value) :
    ExRes (List Frame) :=
  match ancestorId st.heap st.environment distance with
  | some eid => frameAssign st.heap (st.heap.length + 1) eid name v
  | none => .exn .hostCrash

/-- `self.locals.get(expr)` (lines 1249, 1257): the side table is a Python
dict whose keys compare by the structural `Expr.__eq__` (lines 267-273). -/
def localsGet (st : ISt) (e : Expr) : Option Nat :=
  match st.locals.find? (fun p => p.1 == e) with
  | some p => some p.2
  | none => none

/-- Allocate a fresh frame (`Environment(enclosing)`) and return its id. -/
def allocFrame (st : ISt) (parent : Nat) : Nat × ISt :=
  (st.heap.length, { st with heap := st.heap ++ [⟨[], some parent⟩] })

/-! ### Truthiness, equality and arithmetic -/

/-- Python truthiness, as used by the evaluator's bare `if value:` tests
(so None, False, 0, 0.0 and "" are falsey — the host coercion, not the
nil/false-only rule). -/
def truthy : Value → Bool
  | .vnil => false
  | .vbool b => b
  | .vint n => decide (n ≠ 0)
  | .vfloat q => decide (q ≠ 0)
  | .vstr s => !s.isEmpty
  | .callable _ _ _ => true

/-- `check_numbers` on one value (lines 1394-1399): Python
`isinstance(v, (float, int))`, which is also true of booleans. -/
def numeric : Value → Bool
  | .vbool _ => true
  | .vint _ => true
  | .vfloat _ => true
  | _ => false

/-- Whether the Python value is an int-or-bool (so that arithmetic on it
stays an int). -/
def intLike : Value → Bool
  | .vbool _ => true
  | .vint _ => true
  | _ => false

/-- The Python int behind an int-like value (booleans are 0/1). -/
def asInt : Value → Int
  | .vbool b => if b then 1 else 0
  | .vint n => n
  | _ => 0

/-- A numeric value as a rational (the common magnitude Python compares and
computes with; only used after `check_numbers` has passed). -/
def toQ : Value → ℚ
  | .vbool b => if b then 1 else 0
  | .vint n => (n : ℚ)
  | .vfloat q => q
  | _ => 0

/-- Python `==` on two numeric values. -/
def pyNumEq (l r : Value) : Bool := decide (toQ l = toQ r)

/-- Python type tag, for the `len(set((type(left), type(right)))) > 1` test
of the `+` case (line 1327). -/
def typeTag : Value → Nat
  | .vnil => 0
  | .vbool _ => 1
  | .vint _ => 2
  | .vfloat _ => 3
  | .vstr _ => 4
  | .callable _ _ _ => 5

/-- Operand admissible for `+` (line 1324): str, int (incl. bool) or float. -/
def plusOperand : Value → Bool
  | .vstr _ => true
  | .vbool _ => true
  | .vint _ => true
  | .vfloat _ => true
  | _ => false

def isStrV : Value → Bool
  | .vstr _ => true
  | _ => false

/-- Python `str()` of a value, for the string-coercion branch of `+`
(lines 1327-1329).  Float formatting is approximated by an exact decimal of
the carried rational; no claim depends on it. -/
def render : Value → List Char
  | .vnil => ['N','o','n','e']
  | .vbool b => if b then ['T','r','u','e'] else ['F','a','l','s','e']
  | .vint n =>
    if n < 0 then '-' :: Nat.toDigits 10 n.natAbs else Nat.toDigits 10 n.natAbs
  | .vfloat q =>
    (if q < 0 then ['-'] else []) ++ Nat.toDigits 10 q.num.natAbs ++ ['/'] ++ Nat.toDigits 10 q.den
  | .vstr s => s
  | .callable nm _ _ => ['<','f','n',' '] ++ nm ++ ['>']

/-- Python `-v` for a numeric value (bools negate as ints). -/
def negValue : Value → Value
  | .vbool b => .vint (-(if b then (1 : Int) else 0))
  | .vint n => .vint (-n)
  | .vfloat q => .vfloat (-q)
  | v => v

/-- The `Unary` arm of `eval` (lines 1224-1229): MINUS checks one number and
negates; BANG returns the Python `not`; any other operator falls through the
isinstance chain and returns None. -/
def applyUnary (op : Token) (rv : Value) : ExRes Value :=
  if op.type = TokenType.MINUS then
    if numeric rv then .ok (negValue rv) else .exn (.rerr (.operandMustBeNumber op))
  else if op.type = TokenType.BANG then .ok (.vbool (!truthy rv))
  else .ok .vnil

/-- `_eval_binary` after both operands are evaluated (lines 1301-1340),
branch for branch in source order.  `left // right` is Python floor
division: int on two int-likes, a floored float otherwise. -/
def applyBinary (op : Token) (l r : Value) : ExRes Value :=
  if op.type = TokenType.BANG_EQUAL then
    if numeric l && numeric r then .ok (.vbool (!pyNumEq l r))
    else .exn (.rerr (.operandsMustBeNumbers op))
  else if op.type = TokenType.EQUAL_EQUAL then
    if numeric l && numeric r then .ok (.vbool (pyNumEq l r))
    else .exn (.rerr (.operandsMustBeNumbers op))
  else if op.type = TokenType.GREATER then
    if numeric l && numeric r then .ok (.vbool (decide (toQ r < toQ l)))
    else .exn (.rerr (.operandsMustBeNumbers op))
  else if op.type = TokenType.GREATER_EQUAL then
    if numeric l && numeric r then .ok (.vbool (decide (toQ r ≤ toQ l)))
    else .exn (.rerr (.operandsMustBeNumbers op))
  else if op.type = TokenType.LESS then
    if numeric l && numeric r then .ok (.vbool (decide (toQ l < toQ r)))
    else .exn (.rerr (.operandsMustBeNumbers op))
  else if op.type = TokenType.LESS_EQUAL then
    if numeric l && numeric r then .ok (.vbool (decide (toQ l ≤ toQ r)))
    else .exn (.rerr (.operandsMustBeNumbers op))
  else if op.type = TokenType.MINUS ∨ op.type = TokenType.MINUS_MINUS ∨
      op.type = TokenType.MINUS_EQUAL then
    if numeric l && numeric r then
      .ok (if intLike l && intLike r then .vint (asInt l - asInt r)
           else .vfloat (toQ l - toQ r))
    else .exn (.rerr (.operandsMustBeNumbers op))
  else if op.type = TokenType.PLUS ∨ op.type = TokenType.PLUS_PLUS ∨
      op.type = TokenType.PLUS_EQUAL then
    if !(plusOperand l && plusOperand r) then .exn (.rerr (.operandsNotSupported op))
    else if typeTag l ≠ typeTag r ∧ (isStrV l || isStrV r) = true then
      .ok (.vstr (render l ++ render r))
    else if isStrV l && isStrV r then
      .ok (.vstr (render l ++ render r))
    else
      .ok (if intLike l && intLike r then .vint (asInt l + asInt r)
           else .vfloat (toQ l + toQ r))
  else if op.type = TokenType.SLASH ∨ op.type = TokenType.SLASH_EQUAL then
    if numeric l && numeric r then
      if toQ r = 0 then .exn (.rerr (.divideByZero op))
      else
        .ok (if intLike l && intLike r then .vint (Int.fdiv (asInt l) (asInt r))
             else .vfloat ((⌊toQ l / toQ r⌋ : Int) : ℚ))
    else .exn (.rerr (.operandsMustBeNumbers op))
  else if op.type = TokenType.STAR ∨ op.type = TokenType.STAR_EQUAL then
    if numeric l && numeric r then
      .ok (if intLike l && intLike r then .vint (asInt l * asInt r)
           else .vfloat (toQ l * toQ r))
    else .exn (.rerr (.operandsMustBeNumbers op))
  else .ok .vnil

/-- Value of a Literal AST node. -/
def litV : LitV → Value
  | .nilL => .vnil
  | .boolL b => .vbool b
  | .intL n => .vint n
  | .floatL q => .vfloat q
  | .strL s => .vstr s

/-! ### The evaluator

`Interpreter.eval` and its helpers (lines 1217-1399) as one fuel-indexed
function over a request type: one constructor for expression evaluation,
statement evaluation, statement sequences, `execute_block`, the `While`
loop, argument-list evaluation, and callable application. -/

/-- Evaluation requests. -/
inductive EReq where
  | exprE (e : Expr)
  | stmtE (s : Stmt)
  | stmtsE (l : List Stmt)
  | execBlockE (l : List Stmt) (envId : Nat)
  | whileE (c : Expr) (body : Stmt)
  | argsE (l : List Expr)
  | callFnE (name : List Char) (arity : Nat) (impl : CallImpl) (args : List Value)
deriving Repr

/-- Evaluation answers: a single value (statements answer None), or the
argument list built for a call. -/
inductive EAns where
  | one (v : Value)
  | many (vs : List Value)
deriving Repr

def mapV : ExRes Value → ExRes EAns
  | .ok v => .ok (.one v)
  | .exn k => .exn k

/-- Sequence on a single-value result: exceptions propagate with their state
(Python exceptions do not roll back interpreter-state mutations). -/
def bind1 (r : ExRes EAns × ISt) (K : Value → ISt → ExRes EAns × ISt) :
    ExRes EAns × ISt :=
  match r with
  | (.ok (.one v), st1) => K v st1
  | (.ok (.many _), st1) => (.exn .hostCrash, st1)
  | (.exn k, st1) => (.exn k, st1)

/-- Sequence on a statement result: the value (always None) is discarded. -/
def bindU (r : ExRes EAns × ISt) (K : ISt → ExRes EAns × ISt) :
    ExRes EAns × ISt :=
  match r with
  | (.ok _, st1) => K st1
  | (.exn k, st1) => (.exn k, st1)

/-- Bind the parameters of `Interpreter.Function.__call__` (lines 1181-1183):
`zip` stops at the shorter list; `define` may raise. -/
def defineParams (heap : List Frame) (envId : Nat) :
    List Token → List Value → ExRes (List Frame)
  | [], _ => .ok heap
  | _ :: _, [] => .ok heap
  | p :: ps, v :: vs =>
    match frameDefine heap envId p.lexeme v with
    | .ok h2 => defineParams h2 envId ps vs
    | .exn k => .exn k

/-- `Interpreter.eval` / `_eval_statement` / `_eval_call` / `_eval_logical` /
`_eval_binary` / `execute_block` and the `While` loop (lines 1217-1392). -/
def evalGo : Nat → EReq → ISt → ExRes EAns × ISt
  | 0, _, st => (.exn .fuelOut, st)
  | fuel + 1, req, st =>
    match req with
    | .exprE e =>
      match e with
      | .literal v => (.ok (.one (litV v)), st)
      | .grouping inner => evalGo fuel (.exprE inner) st
      | .unary op r =>
        bind1 (evalGo fuel (.exprE r) st) fun rv st1 => (mapV (applyUnary op rv), st1)
      | .conditional c l r =>
        bind1 (evalGo fuel (.exprE c) st) fun cv st1 =>
          if truthy cv then evalGo fuel (.exprE l) st1 else evalGo fuel (.exprE r) st1
      | .variableE name =>
        -- lines 1246-1252: resolved distance if present, else globals
        (match localsGet st (.variableE name) with
         | some d => (mapV (getAt st d name.lexeme), st)
         | none => (mapV (frameGet st.heap (st.heap.length + 1) st.globalsId name.lexeme), st))
      | .assign name value =>
        -- lines 1253-1262
        bind1 (evalGo fuel (.exprE value) st) fun v st1 =>
          match localsGet st1 (.assign name value) with
          | some d =>
            (match assignAt st1 d name.lexeme v with
             | .ok heap1 => (.ok (.one v), { st1 with heap := heap1 })
             | .exn k => (.exn k, st1))
          | none =>
            (match frameAssign st1.heap (st1.heap.length + 1) st1.globalsId name.lexeme v with
             | .ok heap1 => (.ok (.one v), { st1 with heap := heap1 })
             | .exn k => (.exn k, st1))
      | .logical l op r =>
        -- _eval_logical (lines 1289-1294): plain Python truthiness on `left`
        bind1 (evalGo fuel (.exprE l) st) fun lv st1 =>
          if op.type = TokenType.OR ∧ truthy lv = true then (.ok (.one lv), st1)
          else if op.type = TokenType.AND ∧ truthy lv = false then (.ok (.one lv), st1)
          else evalGo fuel (.exprE r) st1
      | .binary l op r =>
        -- _eval_binary (lines 1296-1300): the RIGHT operand is evaluated
        -- before the LEFT operand
        bind1 (evalGo fuel (.exprE r) st) fun rv st1 =>
          bind1 (evalGo fuel (.exprE l) st1) fun lv st2 =>
            (mapV (applyBinary op lv rv), st2)
      | .call ce par args =>
        -- _eval_call (lines 1274-1287): callee, callable check, arguments,
        -- arity check, application — in that order
        bind1 (evalGo fuel (.exprE ce) st) fun fv st1 =>
          match fv with
          | .callable nm ar impl =>
            (match evalGo fuel (.argsE args) st1 with
             | (.ok (.many vs), st2) =>
               if ar ≠ vs.length then (.exn (.rerr (.arityMismatch ar vs.length)), st2)
               else evalGo fuel (.callFnE nm ar impl vs) st2
             | (.ok (.one _), st2) => (.exn .hostCrash, st2)
             | (.exn k, st2) => (.exn k, st2))
          | _ => (.exn (.rerr (.notCallable par)), st1)
    | .argsE l =>
      match l with
      | [] => (.ok (.many []), st)
      | a :: rest =>
        bind1 (evalGo fuel (.exprE a) st) fun v st1 =>
          match evalGo fuel (.argsE rest) st1 with
          | (.ok (.many vs), st2) => (.ok (.many (v :: vs)), st2)
          | (.ok (.one _), st2) => (.exn .hostCrash, st2)
          | (.exn k, st2) => (.exn k, st2)
    | .callFnE _ _ impl vs =>
      match impl with
      | .builtin .clock => (.ok (.one (.vint st.nowT)), st)
      | .builtin .echo => (.ok (.one (vs.getD 0 .vnil)), st)
      | .user _ params body closure =>
        -- Interpreter.Function.__call__ (lines 1180-1188)
        let (fid, st1) := allocFrame st closure
        match defineParams st1.heap fid params vs with
        | .ok heap2 =>
          (match evalGo fuel (.execBlockE body fid) { st1 with heap := heap2 } with
           | (.exn (.retE v), st3) => (.ok (.one v), st3)
           | (.ok _, st3) => (.ok (.one .vnil), st3)
           | (.exn k, st3) => (.exn k, st3))
        | .exn k => (.exn k, st1)
    | .execBlockE stmts envId =>
      -- execute_block (lines 1384-1392): set the slot, run, and restore the
      -- slot in a `finally`, i.e. on every exit path
      let previous := st.environment
      match evalGo fuel (.stmtsE stmts) { st with environment := envId } with
      | (r, st2) => (r, { st2 with environment := previous })
    | .stmtsE l =>
      match l with
      | [] => (.ok (.one .vnil), st)
      | s :: rest =>
        bindU (evalGo fuel (.stmtE s) st) fun st1 => evalGo fuel (.stmtsE rest) st1
    | .stmtE s =>
      match s with
      | .expression e =>
        bind1 (evalGo fuel (.exprE e) st) fun _ st1 => (.ok (.one .vnil), st1)
      | .forExpression e =>
        -- ForExpression is an Expression subclass; eval treats it the same
        bind1 (evalGo fuel (.exprE e) st) fun _ st1 => (.ok (.one .vnil), st1)
      | .print e =>
        bind1 (evalGo fuel (.exprE e) st) fun v st1 =>
          (.ok (.one .vnil), { st1 with output := st1.output ++ [v] })
      | .varDecl name init =>
        -- lines 1344-1347
        (match init with
         | some e =>
           bind1 (evalGo fuel (.exprE e) st) fun v st1 =>
             (match frameDefine st1.heap st1.environment name.lexeme v with
              | .ok h => (.ok (.one .vnil), { st1 with heap := h })
              | .exn k => (.exn k, st1))
         | none =>
           (match frameDefine st.heap st.environment name.lexeme .vnil with
            | .ok h => (.ok (.one .vnil), { st with heap := h })
            | .exn k => (.exn k, st)))
      | .block ss =>
        -- lines 1348-1350: a fresh child environment of the current one
        let (fid, st1) := allocFrame st st.environment
        evalGo fuel (.execBlockE ss fid) st1
      | .ifS c t e =>
        bind1 (evalGo fuel (.exprE c) st) fun cv st1 =>
          if truthy cv then evalGo fuel (.stmtE t) st1
          else
            match e with
            | some s2 => evalGo fuel (.stmtE s2) st1
            | none => (.ok (.one .vnil), st1)  -- eval(None) returns None
      | .functionS name params body =>
        -- lines 1357-1360: capture the current environment as the closure
        let fv := Value.callable name.lexeme params.length (.user name params body st.environment)
        (match frameDefine st.heap st.environment name.lexeme fv with
         | .ok h => (.ok (.one .vnil), { st with heap := h })
         | .exn k => (.exn k, st))
      | .breakS => (.exn .brkE, st)
      | .continueS => (.exn .contE, st)
      | .returnS _ v =>
        (match v with
         | some e => bind1 (evalGo fuel (.exprE e) st) fun val st1 => (.exn (.retE val), st1)
         | none => (.exn (.retE .vnil), st))
      | .whileS c body => evalGo fuel (.whileE c body) st
    | .whileE c body =>
      -- the While arm of _eval_statement (lines 1370-1380)
      bind1 (evalGo fuel (.exprE c) st) fun cv st1 =>
        if truthy cv then
          match evalGo fuel (.stmtE body) st1 with
          | (.ok _, st2) => evalGo fuel (.whileE c body) st2
          | (.exn .brkE, st2) => (.ok (.one .vnil), st2)
          | (.exn .contE, st2) =>
            -- on continue: if the body's last statement is a ForExpression,
            -- evaluate it once, then loop; a non-Block body crashes the
            -- host (`stmt.body.statements` AttributeError)
            (match body with
             | .block ss =>
               (match ss.getLast? with
                | some (.forExpression ie) =>
                  (match evalGo fuel (.stmtE (.forExpression ie)) st2 with
                   | (.ok _, st3) => evalGo fuel (.whileE c body) st3
                   | (.exn k, st3) => (.exn k, st3))
                | _ => evalGo fuel (.whileE c body) st2)
             | _ => (.exn .hostCrash, st2))
          | (.exn k, st2) => (.exn k, st2)
        else (.ok (.one .vnil), st1)

/-! ### The resolver

Class `Resolver` (lines 986-1133): a static pre-pass that maintains a stack
of scopes and records, for some Variable/Assign nodes, a depth in the
interpreter's `locals` side table. -/

/-- `Resolver.VariableStatus` (lines 992-996). -/
inductive VarStatus where
  | declared
  | defined
  | used
deriving DecidableEq, Repr

/-- `FunctionType` (lines 385-391). -/
inductive FunctionType where
  | functionT
  | methodT
deriving DecidableEq, Repr

/-- One constructor per `raise` site of the resolver, plus a host-crash and
fuel-exhaustion outcome. -/
inductive RsErr where
  | readOwnInit (lexeme : List Char)      -- "Can't read local variable in its own initializer."
  | alreadyDeclared (lexeme : List Char)  -- "Already a variable with this name in this scope."
  | returnTopLevel (lexeme : List Char)   -- "Can't return from top-level code."
  | hostCrashR
  | fuelOutR
deriving Repr

/-- Resolver state: the scope stack (a Python list — index 0 is the
OUTERMOST scope, appending pushes the innermost), the current function
type, and the side table written into the interpreter via `resolve`. -/
structure RSt where
  scopes : List (List (List Char × VarStatus))
  currentFunction : Option FunctionType
  locals : List (Expr × Nat)
deriving Repr

def scopeGet (sc : List (List Char × VarStatus)) (k : List Char) : Option VarStatus :=
  match sc.find? (fun p => p.1 == k) with
  | some p => some p.2
  | none => none

def scopeSet (sc : List (List Char × VarStatus)) (k : List Char) (v : VarStatus) :
    List (List Char × VarStatus) :=
  match sc with
  | [] => [(k, v)]
  | p :: rest => if p.1 == k then (k, v) :: rest else p :: scopeSet rest k v

/-- `Interpreter.resolve` (lines 1201-1203): `self.locals[expr] = depth`,
a dict write keyed by the structural `Expr.__eq__`. -/
def localsSet (l : List (Expr × Nat)) (e : Expr) (d : Nat) : List (Expr × Nat) :=
  match l with
  | [] => [(e, d)]
  | p :: rest => if p.1 == e then (e, d) :: rest else p :: localsSet rest e d

/-- `begin_scope` (lines 1007-1009). -/
def beginScope (st : RSt) : RSt := { st with scopes := st.scopes ++ [[]] }

/-- `end_scope` (lines 1011-1016); the unused-variable warnings only print. -/
def endScope (st : RSt) : RSt := { st with scopes := st.scopes.dropLast }

/-- `declare` (lines 1018-1023). -/
def declareR (st : RSt) (name : Token) : Except RsErr RSt :=
  match st.scopes.getLast? with
  | none => .ok st
  | some inner =>
    if (scopeGet inner name.lexeme).isSome then .error (.alreadyDeclared name.lexeme)
    else .ok { st with scopes := st.scopes.dropLast ++ [scopeSet inner name.lexeme .declared] }

/-- `define` (lines 1025-1028). -/
def defineR (st : RSt) (name : Token) : RSt :=
  match st.scopes.getLast? with
  | none => st
  | some inner =>
    { st with scopes := st.scopes.dropLast ++ [scopeSet inner name.lexeme .defined] }

/-- `_resolve_local` (lines 1030-1037): `for idx, scope in
enumerate(self.scopes)` — the iteration starts at index 0, i.e. at the
OUTERMOST scope, and the recorded depth is that index. -/
def resolveLocalR (st : RSt) (e : Expr) (name : Token) (used : Bool) : RSt :=
  match st.scopes.findIdx? (fun sc => (scopeGet sc name.lexeme).isSome) with
  | some idx =>
    let st1 := { st with locals := localsSet st.locals e idx }
    if used then
      let marked := scopeSet (st1.scopes.getD idx []) name.lexeme .used
      { st1 with scopes := st1.scopes.set idx marked }
    else st1
  | none => st

/-- Resolver requests: expression, expression list, statement, statement
list, function resolution, parameter declaration, and `Resolver.block`
applied to a statement expected to be a Block. -/
inductive RReq where
  | exprR (e : Expr)
  | exprsR (l : List Expr)
  | stmtR (s : Stmt)
  | stmtsR (l : List Stmt)
  | functionR (params : List Token) (body : List Stmt)
  | paramsR (l : List Token)
  | blockOf (body : Stmt)
deriving Repr

/-- `Resolver.expression` / `statement` / `statements` / `function` /
`block` (lines 1039-1133), as fuel-indexed structural recursion. -/
def resolveGo : Nat → RReq → RSt → Except RsErr RSt
  | 0, _, _ => .error .fuelOutR
  | fuel + 1, req, st =>
    match req with
    | .exprR e =>
      match e with
      | .variableE name =>
        -- lines 1042-1046: `self.scopes and self.scopes[-1].get(...) == DECLARED`
        let declaredNow : Bool :=
          match st.scopes.getLast? with
          | some inner => decide (scopeGet inner name.lexeme = some .declared)
          | none => false
        if declaredNow then .error (.readOwnInit name.lexeme)
        else .ok (resolveLocalR st (.variableE name) name true)
      | .assign name value =>
        -- lines 1047-1050
        match resolveGo fuel (.exprR value) st with
        | .error e2 => .error e2
        | .ok st1 => .ok (resolveLocalR st1 (.assign name value) name false)
      | .binary l _ r =>
        match resolveGo fuel (.exprR l) st with
        | .error e2 => .error e2
        | .ok st1 => resolveGo fuel (.exprR r) st1
      | .logical l _ r =>
        match resolveGo fuel (.exprR l) st with
        | .error e2 => .error e2
        | .ok st1 => resolveGo fuel (.exprR r) st1
      | .call ce _ args =>
        match resolveGo fuel (.exprR ce) st with
        | .error e2 => .error e2
        | .ok st1 => resolveGo fuel (.exprsR args) st1
      | .grouping inner => resolveGo fuel (.exprR inner) st
      | .unary _ r => resolveGo fuel (.exprR r) st
      | .literal _ => .ok st
      -- Conditional has no isinstance arm in the source resolver: it falls
      -- through to `return None`, leaving its subexpressions unresolved.
      | .conditional _ _ _ => .ok st
    | .exprsR l =>
      match l with
      | [] => .ok st
      | a :: rest =>
        match resolveGo fuel (.exprR a) st with
        | .error e2 => .error e2
        | .ok st1 => resolveGo fuel (.exprsR rest) st1
    | .stmtR s =>
      match s with
      | .varDecl name init =>
        -- lines 1074-1079
        match declareR st name with
        | .error e2 => .error e2
        | .ok st1 =>
          match (match init with
                 | some e0 => resolveGo fuel (.exprR e0) st1
                 | none => .ok st1) with
          | .error e2 => .error e2
          | .ok st2 => .ok (defineR st2 name)
      | .functionS name params body =>
        -- lines 1080-1084
        match declareR st name with
        | .error e2 => .error e2
        | .ok st1 => resolveGo fuel (.functionR params body) (defineR st1 name)
      | .expression e0 => resolveGo fuel (.exprR e0) st
      | .forExpression e0 => resolveGo fuel (.exprR e0) st
      | .ifS c t e0 =>
        match resolveGo fuel (.exprR c) st with
        | .error e2 => .error e2
        | .ok st1 =>
          match resolveGo fuel (.stmtR t) st1 with
          | .error e2 => .error e2
          | .ok st2 =>
            match e0 with
            | some s2 => resolveGo fuel (.stmtR s2) st2
            | none => .ok st2
      | .print e0 => resolveGo fuel (.exprR e0) st
      | .returnS kw v =>
        -- lines 1097-1101
        if st.currentFunction = none then .error (.returnTopLevel kw.lexeme)
        else
          match v with
          | some e0 => resolveGo fuel (.exprR e0) st
          | none => .ok st  -- self.expression(None) falls through
      | .whileS c body =>
        -- lines 1102-1105: the body is passed to Resolver.block directly
        match resolveGo fuel (.exprR c) st with
        | .error e2 => .error e2
        | .ok st1 => resolveGo fuel (.blockOf body) st1
      | .block _ => resolveGo fuel (.blockOf s) st
      | .breakS => .ok st   -- falls through to `return None`
      | .continueS => .ok st
    | .stmtsR l =>
      match l with
      | [] => .ok st
      | s :: rest =>
        match resolveGo fuel (.stmtR s) st with
        | .error e2 => .error e2
        | .ok st1 => resolveGo fuel (.stmtsR rest) st1
    | .functionR params body =>
      -- Resolver.function (lines 1117-1127)
      let enclosing := st.currentFunction
      let st1 := beginScope { st with currentFunction := some .functionT }
      match resolveGo fuel (.paramsR params) st1 with
      | .error e2 => .error e2
      | .ok st2 =>
        match resolveGo fuel (.stmtsR body) st2 with
        | .error e2 => .error e2
        | .ok st3 =>
          let st4 := endScope st3
          .ok { st4 with currentFunction := enclosing }
    | .paramsR l =>
      match l with
      | [] => .ok st
      | p :: rest =>
        match declareR st p with
        | .error e2 => .error e2
        | .ok st1 => resolveGo fuel (.paramsR rest) (defineR st1 p)
    | .blockOf body =>
      -- Resolver.block (lines 1129-1133): begin_scope, then access
      -- `block.statements` (a host crash on a non-Block), then end_scope
      let st1 := beginScope st
      match body with
      | .block ss =>
        (match resolveGo fuel (.stmtsR ss) st1 with
         | .error e2 => .error e2
         | .ok st2 => .ok (endScope st2))
      | _ => .error .hostCrashR

/-! ### Top-level interpretation -/

def initRSt : RSt := ⟨[], none, []⟩

def clockName : List Char := ['c','l','o','c','k']
def echoName : List Char := ['e','c','h','o']

/-- The interpreter's initial state (`Interpreter.__init__`, lines
1190-1199): a sole global frame seeded with `clock` and `echo`. -/
def initISt : ISt :=
  { heap := [⟨[(clockName, .callable clockName 0 (.builtin .clock)),
               (echoName, .callable echoName 1 (.builtin .echo))], none⟩]
  , environment := 0
  , globalsId := 0
  , locals := []
  , nowT := 0
  , output := [] }

/-- `Interpreter.interpret` (lines 1205-1215): run the resolver (its errors
abort interpretation), then evaluate the statements with the side table it
produced; a runtime error stops at the first failing statement. -/
def runProgram (fuel : Nat) (stmts : List Stmt) : Except RsErr (ExRes EAns × ISt) :=
  match resolveGo fuel (.stmtsR stmts) initRSt with
  | .error e => .error e
  | .ok rst => .ok (evalGo fuel (.stmtsE stmts) { initISt with locals := rst.locals })

/-- Value of a global variable after a run. -/
def resultGlobals (r : Except RsErr (ExRes EAns × ISt)) (nm : List Char) : Option Value :=
  match r with
  | .ok (_, st) => assocGet (st.heap.getD st.globalsId ⟨[], none⟩).values nm
  | .error _ => none

/-- Value of a variable in a given heap frame after a run (frames persist in
the heap model, so block-local bindings remain observable). -/
def resultFrameVar (r : Except RsErr (ExRes EAns × ISt)) (fid : Nat) (nm : List Char) :
    Option Value :=
  match r with
  | .ok (_, st) => assocGet (st.heap.getD fid ⟨[], none⟩).values nm
  | .error _ => none

/-- Whether the run completed without any exception. -/
def resultIsOk (r : Except RsErr (ExRes EAns × ISt)) : Bool :=
  match r with
  | .ok (.ok _, _) => true
  | _ => false

/-! ### Concrete program fixtures

Hand-built ASTs for the concrete programs the claims mention, with token
positions as the scanner would assign them (distinct columns make distinct
tokens, which matters because the side table is keyed by structural node
equality). -/

def idTok (s : List Char) (col : Nat) : Token := ⟨.IDENTIFIER, s, none, 1, (col : Int)⟩

def opTok (ty : TokenType) (col : Nat) : Token := ⟨ty, [], none, 1, (col : Int)⟩

def cA : List Char := ['a']
def cB : List Char := ['b']
def cC : List Char := ['c']
def cOut : List Char := ['o','u','t']

/-- `var a = 1; var out = 0; { { var a = 2; out = a; } }` -/
def progC2 : List Stmt :=
  [ .varDecl (idTok cA 4) (some (.literal (.intL 1)))
  , .varDecl (idTok cOut 15) (some (.literal (.intL 0)))
  , .block [ .block
      [ .varDecl (idTok cA 28) (some (.literal (.intL 2)))
      , .expression (.assign (idTok cOut 37) (.variableE (idTok cA 43))) ] ] ]

/-- The read of `a` in `out = a` of `progC2`. -/
def c2ReadNode : Expr := .variableE (idTok cA 43)

/-- `var b = 0; for (var a = 0; a < 3; a = a + 1) { if (a == 2) { continue; } b = b + a; }`,
with the for statement desugared exactly as `Parser.for_statement` does. -/
def progC4 : List Stmt :=
  [ .varDecl (idTok cB 4) (some (.literal (.intL 0)))
  , forDesugar
      (some (.varDecl (idTok cA 20) (some (.literal (.intL 0)))))
      (some (.binary (.variableE (idTok cA 27)) (opTok .LESS 29) (.literal (.intL 3))))
      (some (.assign (idTok cA 34)
        (.binary (.variableE (idTok cA 38)) (opTok .PLUS 40) (.literal (.intL 1)))))
      (.block
        [ .ifS (.binary (.variableE (idTok cA 50)) (opTok .EQUAL_EQUAL 52) (.literal (.intL 2)))
            (.block [.continueS]) none
        , .expression (.assign (idTok cB 64)
            (.binary (.variableE (idTok cB 68)) (opTok .PLUS 70) (.variableE (idTok cA 72)))) ]) ]

/-- `var a = 1; var c = (a = 2) + a;` -/
def progC10 : List Stmt :=
  [ .varDecl (idTok cA 4) (some (.literal (.intL 1)))
  , .varDecl (idTok cC 15) (some (.binary
      (.grouping (.assign (idTok cA 20) (.literal (.intL 2))))
      (opTok .PLUS 27)
      (.variableE (idTok cA 29)))) ]

/-- Depth recorded in the resolver side table for a given node. -/
def resolvedDepth (fuel : Nat) (stmts : List Stmt) (e : Expr) : Option Nat :=
  match resolveGo fuel (.stmtsR stmts) initRSt with
  | .ok rst =>
    (match rst.locals.find? (fun p => p.1 == e) with
     | some p => some p.2
     | none => none)
  | .error _ => none

/-- Is the value an int or a float (the claims' notion of a number, which
unlike Python's `isinstance` test excludes booleans)? -/
def numIF : Value → Bool
  | .vint _ => true
  | .vfloat _ => true
  | _ => false

def isFloatV : Value → Bool
  | .vfloat _ => true
  | _ => false

def isCallableV : Value → Bool
  | .callable _ _ _ => true
  | _ => false

/-! ### Claim-specific scanner definitions -/

/-- Python `source.split('\n')`. -/
def splitLines : List Char → List (List Char)
  | [] => [[]]
  | c :: rest =>
    let r := splitLines rest
    if c = '\n' then [] :: r else (c :: r.headD []) :: r.tail

/-- The 1-based line `ln` of a source text. -/
def lineChars (src : List Char) (ln : Nat) : List Char :=
  (splitLines src).getD (ln - 1) []

/-- The claim's reading of a token's position: its lexeme appears at the
recorded (0-based) column WITHIN its own recorded line. -/
def tokenAtLineColumn (src : List Char) (t : Token) : Prop :=
  0 ≤ t.column ∧
    ((lineChars src t.line).drop t.column.toNat).take t.lexeme.length = t.lexeme

instance (src : List Char) (t : Token) : Decidable (tokenAtLineColumn src t) := by
  unfold tokenAtLineColumn; infer_instance

/-- What actually holds of an emitted token: EOF, or the lexeme is the slice
of the whole source starting at the recorded column taken as an ABSOLUTE
offset. -/
def TokOk (src : List Char) (t : Token) : Prop :=
  t.type = TokenType.EOF ∨
    (0 ≤ t.column ∧ t.lexeme = (src.drop t.column.toNat).take t.lexeme.length)

/-- All accumulated tokens satisfy `TokOk`. -/
def TokensInv (src : List Char) (σ : ScSt) : Prop := ∀ t ∈ σ.tokens, TokOk src t

/-- The two-line source `"a\nb"`. -/
def srcAB : List Char := ['a', '\n', 'b']

/-- Token stream of `"== 1"` (as produced by the scanner). -/
def c6Toks : List Token :=
  [ ⟨.EQUAL_EQUAL, ['=','='], none, 1, 0⟩
  , ⟨.NUMBER, ['1'], some (.num 1), 1, 3⟩
  , ⟨.EOF, [], none, 1, -1⟩ ]

/-! ### Fixtures for the C4 witness -/

def c4wCond : Expr := .literal (.boolL true)
def c4wInc : Expr := .literal (.intL 1)
def c4wBody : List Stmt := [.continueS, .forExpression c4wInc]
def c4wSt2 : ISt := { initISt with heap := initISt.heap ++ [⟨[], some 0⟩] }

/-! ## Theorems -/

/-- Claim C1 (corrected): `_eval_logical` uses the host's truthiness (a bare
`if left:`), under which 0, 0.0 and the empty string are FALSEY, contrary to
the claim's nil/false-only rule.  With that truthiness the short-circuit
structure is as described: `or` returns the left value (right unevaluated,
the state after the left operand is the final state) iff the left is truthy,
else evaluates and returns the right; `and` symmetrically.  The trailing
conjuncts record the truthiness table actually implemented. -/
theorem c1_logical_amended :
    (∀ (f : Nat) (l r : Expr) (o : Token) (st st1 : ISt) (lv : Value),
      o.type = TokenType.OR →
      evalGo f (.exprE l) st = (.ok (.one lv), st1) →
      evalGo (f + 1) (.exprE (.logical l o r)) st =
        if truthy lv then (.ok (.one lv), st1) else evalGo f (.exprE r) st1)
    ∧ (∀ (f : Nat) (l r : Expr) (o : Token) (st st1 : ISt) (lv : Value),
      o.type = TokenType.AND →
      evalGo f (.exprE l) st = (.ok (.one lv), st1) →
      evalGo (f + 1) (.exprE (.logical l o r)) st =
        if truthy lv then evalGo f (.exprE r) st1 else (.ok (.one lv), st1))
    ∧ truthy .vnil = false ∧ truthy (.vbool false) = false
    ∧ truthy (.vint 0) = false ∧ truthy (.vfloat 0) = false
    ∧ truthy (.vstr []) = false
    ∧ (∀ n : Int, n ≠ 0 → truthy (.vint n) = true)
    ∧ (∀ s : List Char, s ≠ [] → truthy (.vstr s) = true) := by
  refine ⟨?_, ?_, rfl, rfl, rfl, by simp [truthy], rfl, ?_, ?_⟩
  · intro f l r o st st1 lv ho hl
    simp only [evalGo, hl, bind1, ho]
    cases htv : truthy lv <;> simp [htv]
  · intro f l r o st st1 lv ho hl
    simp only [evalGo, hl, bind1, ho]
    cases htv : truthy lv <;> simp [htv]
  · intro n hn
    simp [truthy, hn]
  · intro s hs
    simp [truthy, hs]

/-- Claim C1 counterexample: by the claim, the number 0 is truthy, so
`0 or 5` must return 0 without evaluating the right operand; the code
returns 5 (it evaluates and returns the right operand, because Python's
truthiness makes 0 falsey). -/
theorem c1_counterexample :
    evalGo 3 (.exprE (.logical (.literal (.intL 0)) (opTok .OR 2) (.literal (.intL 5)))) initISt
      = (.ok (.one (.vint 5)), initISt)
    ∧ Value.vint 5 ≠ Value.vint 0 := by
  refine ⟨rfl, ?_⟩
  intro h
  exact absurd (Value.vint.inj h) (by decide)

/-- Claim C1 witness: the amended theorem applied at `"" or 7`. -/
theorem c1_witness :
    evalGo 4 (.exprE (.logical (.literal (.strL [])) (opTok .OR 2) (.literal (.intL 7)))) initISt
      = (.ok (.one (.vint 7)), initISt) := by
  have h := c1_logical_amended.1 3 (.literal (.strL [])) (.literal (.intL 7))
    (opTok .OR 2) initISt initISt (.vstr []) rfl rfl
  rw [h]
  rfl

/-- Claim C2 (code bug): `_resolve_local` iterates `enumerate(self.scopes)`
from index 0, which is the OUTERMOST scope, and records that index as the
depth — not a search from the innermost scope outward with the depth counted
from the innermost.  On
`var a = 1; var out = 0; { { var a = 2; out = a; } }` the read of `a` is
recorded at depth 1, so `get_at` walks out of the inner frame and reads the
outer (global) `a = 1`: the program ends with `out = 1`, while the claim's
innermost-first resolution requires `out = 2` (the inner binding shadows). -/
theorem c2_resolver_bug :
    resolvedDepth 100 progC2 c2ReadNode = some 1
    ∧ resultGlobals (runProgram 100 progC2) cOut = some (.vint 1)
    ∧ resultIsOk (runProgram 100 progC2) = true := by
  exact ⟨rfl, rfl, rfl⟩

/-- Claim C3 counterexample: `nil == nil` raises "Operands must be numbers"
(`check_numbers` runs before the comparison), instead of returning true as
the claim states. -/
theorem c3_counterexample :
    evalGo 3 (.exprE (.binary (.literal .nilL) (opTok .EQUAL_EQUAL 4) (.literal .nilL))) initISt
      = (.exn (.rerr (.operandsMustBeNumbers (opTok .EQUAL_EQUAL 4))), initISt) := rfl

/-- Claim C3 (corrected): `==` and `!=` first require BOTH operands numeric
(Python's `isinstance(v, (float, int))`, which also admits booleans); any
non-numeric operand — including nil — raises "Operands must be numbers",
and numeric operands compare numerically. -/
theorem c3_equality_amended :
    ∀ (o : Token) (l r : Value),
      (o.type = TokenType.EQUAL_EQUAL →
        applyBinary o l r =
          (if numeric l && numeric r then .ok (.vbool (pyNumEq l r))
           else .exn (.rerr (.operandsMustBeNumbers o))))
      ∧ (o.type = TokenType.BANG_EQUAL →
        applyBinary o l r =
          (if numeric l && numeric r then .ok (.vbool (!pyNumEq l r))
           else .exn (.rerr (.operandsMustBeNumbers o)))) := by
  intro o l r
  constructor <;> intro ho <;> simp [applyBinary, ho]

/-- Claim C3 witness: the amended theorem applied at `1 == 1` and at
`1 != ""`. -/
theorem c3_witness :
    applyBinary (opTok .EQUAL_EQUAL 4) (.vint 1) (.vint 1) = .ok (.vbool true)
    ∧ applyBinary (opTok .BANG_EQUAL 4) (.vint 1) (.vstr [])
        = .exn (.rerr (.operandsMustBeNumbers (opTok .BANG_EQUAL 4))) := by
  constructor
  · have h := (c3_equality_amended (opTok .EQUAL_EQUAL 4) (.vint 1) (.vint 1)).1 rfl
    rw [h]; rfl
  · have h := (c3_equality_amended (opTok .BANG_EQUAL 4) (.vint 1) (.vstr [])).2 rfl
    rw [h]; rfl

/-- Claim C4 (confirmed): in the While evaluation, when the body (a Block
whose last statement is a ForExpression marker, as `for_statement` desugars
it) raises the continue signal, the evaluator runs exactly that trailing
increment once and then re-enters the loop (re-testing the condition); and
the claim's concrete program
`var b = 0; for (var a = 0; a < 3; a = a + 1) { if (a == 2) { continue; } b = b + a; }`
(whose for-loop is desugared by `forDesugar`) finishes normally with
`b = 1` and with the loop variable `a` left at 3 in its frame. -/
theorem c4_continue_increment :
    (∀ (f : Nat) (c : Expr) (ss : List Stmt) (ie : Expr) (st st1 st2 : ISt) (cv : Value),
      evalGo f (.exprE c) st = (.ok (.one cv), st1) →
      truthy cv = true →
      evalGo f (.stmtE (.block ss)) st1 = (.exn .contE, st2) →
      ss.getLast? = some (.forExpression ie) →
      evalGo (f + 1) (.whileE c (.block ss)) st =
        (match evalGo f (.stmtE (.forExpression ie)) st2 with
         | (.ok _, st3) => evalGo f (.whileE c (.block ss)) st3
         | (.exn k, st3) => (.exn k, st3)))
    ∧ resultGlobals (runProgram 200 progC4) cB = some (.vint 1)
    ∧ resultFrameVar (runProgram 200 progC4) 1 cA = some (.vint 3)
    ∧ resultIsOk (runProgram 200 progC4) = true := by
  refine ⟨?_, rfl, rfl, rfl⟩
  intro f c ss ie st st1 st2 cv h1 h2 h3 h4
  simp only [evalGo, h1, bind1, h2, if_true, h3, h4]

/-- Claim C4 witness: the loop-step theorem applied to a concrete loop whose
body raises continue and ends in a ForExpression marker. -/
theorem c4_witness :
    evalGo 10 (.exprE c4wCond) initISt = (.ok (.one (.vbool true)), initISt)
    ∧ truthy (.vbool true) = true
    ∧ evalGo 10 (.stmtE (.block c4wBody)) initISt = (.exn .contE, c4wSt2)
    ∧ List.getLast? c4wBody = some (.forExpression c4wInc)
    ∧ evalGo 11 (.whileE c4wCond (.block c4wBody)) initISt =
        (match evalGo 10 (.stmtE (.forExpression c4wInc)) c4wSt2 with
         | (.ok _, st3) => evalGo 10 (.whileE c4wCond (.block c4wBody)) st3
         | (.exn k, st3) => (.exn k, st3)) := by
  refine ⟨rfl, rfl, rfl, rfl, ?_⟩
  exact c4_continue_increment.1 10 c4wCond c4wBody c4wInc initISt initISt c4wSt2
    (.vbool true) rfl rfl rfl rfl

/-- Claim C7 (confirmed): with numeric operands (ints or floats), `/` raises
"Divide by zero" iff the right operand equals 0; otherwise two ints produce
the floored integer quotient (Python `//`), and a float on either side
produces a float. -/
theorem c7_division :
    (∀ (o : Token) (l r : Value),
      o.type = TokenType.SLASH → numIF l = true → numIF r = true →
      (applyBinary o l r = .exn (.rerr (.divideByZero o)) ↔ toQ r = 0))
    ∧ (∀ (o : Token) (a b : Int), o.type = TokenType.SLASH → b ≠ 0 →
      applyBinary o (.vint a) (.vint b) = .ok (.vint (Int.fdiv a b)))
    ∧ (∀ (o : Token) (l r : Value),
      o.type = TokenType.SLASH → numIF l = true → numIF r = true →
      toQ r ≠ 0 → (isFloatV l = true ∨ isFloatV r = true) →
      ∃ q : ℚ, applyBinary o l r = .ok (.vfloat q)) := by
  refine ⟨?_, ?_, ?_⟩
  · intro o l r ho hl hr
    have hnl : numeric l = true := by cases l <;> simp_all [numIF, numeric]
    have hnr : numeric r = true := by cases r <;> simp_all [numIF, numeric]
    by_cases h0 : toQ r = 0 <;> simp [applyBinary, ho, hnl, hnr, h0]
  · intro o a b ho hb
    have hq : ((b : ℚ) ≠ 0) := Int.cast_ne_zero.mpr hb
    simp [applyBinary, ho, toQ, hq, intLike, asInt, numeric]
  · intro o l r ho hl hr h0 hf
    cases l <;> cases r <;>
      simp_all [numIF, isFloatV, applyBinary, ho, toQ, intLike, numeric]

/-- Claim C7 witness: `7 / 2 = 3` (floored) and `1 / 0` raises, both via the
division theorem. -/
theorem c7_witness :
    applyBinary (opTok .SLASH 1) (.vint 7) (.vint 2) = .ok (.vint 3)
    ∧ applyBinary (opTok .SLASH 1) (.vint 1) (.vint 0)
        = .exn (.rerr (.divideByZero (opTok .SLASH 1))) := by
  constructor
  · have h := c7_division.2.1 (opTok .SLASH 1) 7 2 rfl (by decide)
    have h2 : Int.fdiv 7 2 = 3 := by decide
    rw [h, h2]
  · exact (c7_division.1 (opTok .SLASH 1) (.vint 1) (.vint 0) rfl rfl rfl).mpr (by decide)

/-- Claim C8 (confirmed): `_eval_call` evaluates the callee and raises
"Can only call functions and classes." if its value is not a Callable —
before evaluating any argument and before any arity check; when the callee
is a callable of arity n and the evaluated argument count differs from n,
an arity-mismatch error is raised with the state exactly as after argument
evaluation (the function body is not entered). -/
theorem c8_call_checks :
    (∀ (f : Nat) (ce : Expr) (par : Token) (args : List Expr) (st st1 : ISt) (v : Value),
      evalGo f (.exprE ce) st = (.ok (.one v), st1) →
      isCallableV v = false →
      evalGo (f + 1) (.exprE (.call ce par args)) st
        = (.exn (.rerr (.notCallable par)), st1))
    ∧ (∀ (f : Nat) (ce : Expr) (par : Token) (args : List Expr) (st st1 st2 : ISt)
        (nm : List Char) (n : Nat) (impl : CallImpl) (vs : List Value),
      evalGo f (.exprE ce) st = (.ok (.one (.callable nm n impl)), st1) →
      evalGo f (.argsE args) st1 = (.ok (.many vs), st2) →
      n ≠ vs.length →
      evalGo (f + 1) (.exprE (.call ce par args)) st
        = (.exn (.rerr (.arityMismatch n vs.length)), st2)) := by
  constructor
  · intro f ce par args st st1 v h1 h2
    cases v <;> simp_all [evalGo, bind1, isCallableV]
  · intro f ce par args st st1 st2 nm n impl vs h1 h2 h3
    simp [evalGo, bind1, h1, h2, h3]

/-- Claim C8 witness: `1()` raises the non-callable error, and `echo()`
(arity 1, zero arguments) raises the arity mismatch, via the call theorem. -/
theorem c8_witness :
    evalGo 2 (.exprE (.call (.literal (.intL 1)) (opTok .RIGHT_PAREN 13) [])) initISt
      = (.exn (.rerr (.notCallable (opTok .RIGHT_PAREN 13))), initISt)
    ∧ evalGo 3 (.exprE (.call (.variableE (idTok echoName 0)) (opTok .RIGHT_PAREN 5) [])) initISt
      = (.exn (.rerr (.arityMismatch 1 0)), initISt) := by
  constructor
  · exact c8_call_checks.1 1 (.literal (.intL 1)) (opTok .RIGHT_PAREN 13) [] initISt initISt
      (.vint 1) rfl rfl
  · exact c8_call_checks.2 2 (.variableE (idTok echoName 0)) (opTok .RIGHT_PAREN 5) []
      initISt initISt initISt echoName 1 (.builtin .echo) [] rfl rfl (by decide)

/-- Claim C9 (confirmed): `execute_block` restores the interpreter's
current-environment slot to its pre-entry value on EVERY exit path — the
equation holds for all results, whether the statements finished normally,
raised a runtime error, or unwound with break/continue/return (and also
under fuel exhaustion); and consequently executing a Block statement leaves
the slot unchanged as well. -/
theorem c9_block_env_restored :
    (∀ (f : Nat) (stmts : List Stmt) (envId : Nat) (st : ISt),
      ((evalGo f (.execBlockE stmts envId) st).2).environment = st.environment)
    ∧ (∀ (f : Nat) (ss : List Stmt) (st : ISt),
      ((evalGo f (.stmtE (.block ss)) st).2).environment = st.environment) := by
  have hmain : ∀ (f : Nat) (stmts : List Stmt) (envId : Nat) (st : ISt),
      ((evalGo f (.execBlockE stmts envId) st).2).environment = st.environment := by
    intro f stmts envId st
    cases f with
    | zero => rfl
    | succ n => simp only [evalGo]
  refine ⟨hmain, ?_⟩
  intro f ss st
  cases f with
  | zero => rfl
  | succ n =>
    simp only [evalGo, allocFrame]
    exact hmain n ss st.heap.length { st with heap := st.heap ++ [⟨[], some st.environment⟩] }

/-- Claim C10 (confirmed): `_eval_binary` evaluates the RIGHT operand first:
an exception from the right operand propagates without the left being
evaluated, and in the success case the left operand is evaluated in the
state left by the right operand; with side effects this is observable —
`var a = 1; var c = (a = 2) + a;` ends with c = 3 (the right-hand read of
`a` sees the old value 1), not the 4 a left-to-right order would give. -/
theorem c10_binary_right_first :
    (∀ (f : Nat) (l : Expr) (o : Token) (r : Expr) (st st1 : ISt) (k : ExKind),
      evalGo f (.exprE r) st = (.exn k, st1) →
      evalGo (f + 1) (.exprE (.binary l o r)) st = (.exn k, st1))
    ∧ (∀ (f : Nat) (l : Expr) (o : Token) (r : Expr) (st st1 st2 : ISt) (rv lv : Value),
      evalGo f (.exprE r) st = (.ok (.one rv), st1) →
      evalGo f (.exprE l) st1 = (.ok (.one lv), st2) →
      evalGo (f + 1) (.exprE (.binary l o r)) st = (mapV (applyBinary o lv rv), st2))
    ∧ resultGlobals (runProgram 100 progC10) cC = some (.vint 3)
    ∧ resultGlobals (runProgram 100 progC10) cA = some (.vint 2) := by
  refine ⟨?_, ?_, rfl, rfl⟩
  · intro f l o r st st1 k h1
    simp [evalGo, bind1, h1]
  · intro f l o r st st1 st2 rv lv h1 h2
    simp [evalGo, bind1, h1, h2]

/-- Claim C10 witness: the sequencing theorem applied at `1 + 2`. -/
theorem c10_witness :
    evalGo 2 (.exprE (.binary (.literal (.intL 1)) (opTok .PLUS 0) (.literal (.intL 2)))) initISt
      = (mapV (applyBinary (opTok .PLUS 0) (.vint 1) (.vint 2)), initISt) := by
  exact c10_binary_right_first.2.1 1 (.literal (.intL 1)) (opTok .PLUS 0)
    (.literal (.intL 2)) initISt initISt initISt (.vint 2) (.vint 1) rfl rfl

/-! Stepping lemmas for the `primary` stages, used by the C6 theorem. -/

theorem pCheck_ne (σ : PState) (ty : TokenType) (h : (pPeek σ).type ≠ ty) :
    pCheck σ ty = false := by
  unfold pCheck
  split <;> simp [h]

theorem pAdvance_ne_eof (σ : PState) (h : (pPeek σ).type ≠ TokenType.EOF) :
    pAdvance σ = { σ with current := σ.current + 1 } := by
  simp [pAdvance, pIsAtEnd, h]

theorem primaryBody_miss (rec : PRec) (σ : PState)
    (h : (pPeek σ).type ≠ TokenType.FALSE) :
    primaryBody rec σ = primaryTrue rec σ := by
  simp [primaryBody, pMatch, pCheck_ne _ _ h]

theorem primaryTrue_miss (rec : PRec) (σ : PState)
    (h : (pPeek σ).type ≠ TokenType.TRUE) :
    primaryTrue rec σ = primaryNil rec σ := by
  simp [primaryTrue, pMatch, pCheck_ne _ _ h]

theorem primaryNil_miss (rec : PRec) (σ : PState)
    (h : (pPeek σ).type ≠ TokenType.NIL) :
    primaryNil rec σ = primaryNumStr rec σ := by
  simp [primaryNil, pMatch, pCheck_ne _ _ h]

theorem primaryNumStr_miss (rec : PRec) (σ : PState)
    (h1 : (pPeek σ).type ≠ TokenType.NUMBER) (h2 : (pPeek σ).type ≠ TokenType.STRING) :
    primaryNumStr rec σ = primaryParen rec σ := by
  simp [primaryNumStr, pMatch, pCheck_ne _ _ h1, pCheck_ne _ _ h2]

theorem primaryParen_miss (rec : PRec) (σ : PState)
    (h : (pPeek σ).type ≠ TokenType.LEFT_PAREN) :
    primaryParen rec σ = primaryIdent rec σ := by
  simp [primaryParen, pMatch, pCheck_ne _ _ h]

theorem primaryIdent_miss (rec : PRec) (σ : PState)
    (h : (pPeek σ).type ≠ TokenType.IDENTIFIER) :
    primaryIdent rec σ = primaryErrEquality rec σ := by
  simp [primaryIdent, pMatch, pCheck_ne _ _ h]

theorem primaryErrEquality_miss (rec : PRec) (σ : PState)
    (h1 : (pPeek σ).type ≠ TokenType.BANG_EQUAL) (h2 : (pPeek σ).type ≠ TokenType.EQUAL_EQUAL) :
    primaryErrEquality rec σ = primaryErrComparison rec σ := by
  simp [primaryErrEquality, pMatch, pCheck_ne _ _ h1, pCheck_ne _ _ h2]

theorem primaryErrComparison_miss (rec : PRec) (σ : PState)
    (h1 : (pPeek σ).type ≠ TokenType.GREATER) (h2 : (pPeek σ).type ≠ TokenType.GREATER_EQUAL)
    (h3 : (pPeek σ).type ≠ TokenType.LESS) (h4 : (pPeek σ).type ≠ TokenType.LESS_EQUAL) :
    primaryErrComparison rec σ = primaryErrTerm rec σ := by
  simp [primaryErrComparison, pMatch, pCheck_ne _ _ h1, pCheck_ne _ _ h2,
    pCheck_ne _ _ h3, pCheck_ne _ _ h4]

theorem primaryErrTerm_miss (rec : PRec) (σ : PState)
    (h : (pPeek σ).type ≠ TokenType.PLUS) :
    primaryErrTerm rec σ = primaryErrFactor rec σ := by
  simp [primaryErrTerm, pMatch, pCheck_ne _ _ h]

theorem primaryErrEquality_hit (rec : PRec) (σ : PState)
    (h : (pPeek σ).type = TokenType.BANG_EQUAL ∨ (pPeek σ).type = TokenType.EQUAL_EQUAL) :
    primaryErrEquality rec σ
      = .error (mkPErr (pPeek (pAdvance σ)) PMsg.missingLeftOperand) := by
  rcases h with h | h
  · simp [primaryErrEquality, pMatch, pCheck, pIsAtEnd, pErrEmpty, h]
  · have hne : (pPeek σ).type ≠ TokenType.BANG_EQUAL := by simp [h]
    simp [primaryErrEquality, pMatch, pCheck, pIsAtEnd, pErrEmpty, pCheck_ne _ _ hne, h]

theorem primaryErrComparison_hit (rec : PRec) (σ : PState)
    (h : (pPeek σ).type = TokenType.GREATER ∨ (pPeek σ).type = TokenType.GREATER_EQUAL ∨
         (pPeek σ).type = TokenType.LESS ∨ (pPeek σ).type = TokenType.LESS_EQUAL) :
    primaryErrComparison rec σ
      = .error (mkPErr (pPeek (pAdvance σ)) PMsg.missingLeftOperand) := by
  rcases h with h | h | h | h <;>
    simp [primaryErrComparison, pMatch, pCheck, pIsAtEnd, pErrEmpty, h]

theorem primaryErrTerm_hit (rec : PRec) (σ : PState)
    (h : (pPeek σ).type = TokenType.PLUS) :
    primaryErrTerm rec σ
      = .error (mkPErr (pPeek (pAdvance σ)) PMsg.missingLeftOperand) := by
  simp [primaryErrTerm, pMatch, pCheck, pIsAtEnd, pErrEmpty, h]

theorem primaryErrFactor_hit (rec : PRec) (σ : PState)
    (h : (pPeek σ).type = TokenType.SLASH ∨ (pPeek σ).type = TokenType.STAR) :
    primaryErrFactor rec σ
      = .error (mkPErr (pPeek (pAdvance σ)) PMsg.missingLeftOperand) := by
  rcases h with h | h <;>
    simp [primaryErrFactor, pMatch, pCheck, pIsAtEnd, pErrEmpty, h]

theorem primary_chain_to_err (rec : PRec) (σ : PState)
    (h1 : (pPeek σ).type ≠ TokenType.FALSE) (h2 : (pPeek σ).type ≠ TokenType.TRUE)
    (h3 : (pPeek σ).type ≠ TokenType.NIL) (h4 : (pPeek σ).type ≠ TokenType.NUMBER)
    (h5 : (pPeek σ).type ≠ TokenType.STRING) (h6 : (pPeek σ).type ≠ TokenType.LEFT_PAREN)
    (h7 : (pPeek σ).type ≠ TokenType.IDENTIFIER) :
    primaryBody rec σ = primaryErrEquality rec σ := by
  rw [primaryBody_miss rec σ h1, primaryTrue_miss rec σ h2, primaryNil_miss rec σ h3,
    primaryNumStr_miss rec σ h4 h5, primaryParen_miss rec σ h6, primaryIdent_miss rec σ h7]

/-- Claim C6 counterexample: on the program `== 1`, `primary` does NOT
recover by invoking and discarding the equality sub-parser — `error` raises,
so the parse of the expression aborts with a propagating `ParserError`
(message "Missing left-hand operand", reported at the token after the
operator), rather than returning a (discarded) result. -/
theorem c6_counterexample :
    scanSource ['=','=',' ','1'] = .ok c6Toks
    ∧ parseGo () 10 .primaryR ⟨c6Toks, 0⟩
        = .error ⟨1, ['1'], false, .missingLeftOperand⟩ := ⟨rfl, rfl⟩

/-- Claim C6 (corrected): when `primary` sees a leading binary operator
(`!=`, `==`, `<`, `<=`, `>`, `>=`, `+`, `/` or `*`), it consumes the
operator and raises a `ParserError` with the diagnostic "Missing left-hand
operand" at the following token.  The sub-parser invocation written after
`self.error(...)` in the source is unreachable (error always raises), so
recovery is NOT local: the exception propagates to `declaration`, which
synchronizes. -/
theorem c6_error_production :
    ∀ (rec : PRec) (σ : PState),
      ((pPeek σ).type = TokenType.BANG_EQUAL ∨ (pPeek σ).type = TokenType.EQUAL_EQUAL ∨
       (pPeek σ).type = TokenType.GREATER ∨ (pPeek σ).type = TokenType.GREATER_EQUAL ∨
       (pPeek σ).type = TokenType.LESS ∨ (pPeek σ).type = TokenType.LESS_EQUAL ∨
       (pPeek σ).type = TokenType.PLUS ∨ (pPeek σ).type = TokenType.SLASH ∨
       (pPeek σ).type = TokenType.STAR) →
      primaryBody rec σ =
        .error (mkPErr (pPeek { σ with current := σ.current + 1 }) PMsg.missingLeftOperand) := by
  intro rec σ h
  have hEOF : (pPeek σ).type ≠ TokenType.EOF := by
    rcases h with h | h | h | h | h | h | h | h | h <;> simp [h]
  have hadv := pAdvance_ne_eof σ hEOF
  have hchain : primaryBody rec σ = primaryErrEquality rec σ := by
    apply primary_chain_to_err <;> rcases h with h | h | h | h | h | h | h | h | h <;> simp [h]
  rw [hchain]
  rcases h with h | h | h | h | h | h | h | h | h
  · rw [primaryErrEquality_hit rec σ (Or.inl h), hadv]
  · rw [primaryErrEquality_hit rec σ (Or.inr h), hadv]
  · rw [primaryErrEquality_miss rec σ (by simp [h]) (by simp [h]),
      primaryErrComparison_hit rec σ (Or.inl h), hadv]
  · rw [primaryErrEquality_miss rec σ (by simp [h]) (by simp [h]),
      primaryErrComparison_hit rec σ (Or.inr (Or.inl h)), hadv]
  · rw [primaryErrEquality_miss rec σ (by simp [h]) (by simp [h]),
      primaryErrComparison_hit rec σ (Or.inr (Or.inr (Or.inl h))), hadv]
  · rw [primaryErrEquality_miss rec σ (by simp [h]) (by simp [h]),
      primaryErrComparison_hit rec σ (Or.inr (Or.inr (Or.inr h))), hadv]
  · rw [primaryErrEquality_miss rec σ (by simp [h]) (by simp [h]),
      primaryErrComparison_miss rec σ (by simp [h]) (by simp [h]) (by simp [h]) (by simp [h]),
      primaryErrTerm_hit rec σ h, hadv]
  · rw [primaryErrEquality_miss rec σ (by simp [h]) (by simp [h]),
      primaryErrComparison_miss rec σ (by simp [h]) (by simp [h]) (by simp [h]) (by simp [h]),
      primaryErrTerm_miss rec σ (by simp [h]), primaryErrFactor_hit rec σ (Or.inl h), hadv]
  · rw [primaryErrEquality_miss rec σ (by simp [h]) (by simp [h]),
      primaryErrComparison_miss rec σ (by simp [h]) (by simp [h]) (by simp [h]) (by simp [h]),
      primaryErrTerm_miss rec σ (by simp [h]), primaryErrFactor_hit rec σ (Or.inr h), hadv]

/-- Claim C6 witness: the error-production theorem applied to the token
stream of `== 1` (with the parser itself as the sub-parser, whose result is
irrelevant because the raise precedes the call). -/
theorem c6_witness :
    parseGo () 10 .primaryR ⟨c6Toks, 0⟩
      = .error (mkPErr (pPeek ⟨c6Toks, 1⟩) PMsg.missingLeftOperand) := by
  have h := c6_error_production (parseGo () 9) ⟨c6Toks, 0⟩ (Or.inr (Or.inl rfl))
  calc parseGo () 10 .primaryR ⟨c6Toks, 0⟩
      = primaryBody (parseGo () 9) ⟨c6Toks, 0⟩ := rfl
    _ = _ := h

/-! Invariant machinery for the C5 scanner theorem: every token the scanner
accumulates is either EOF or carries its lexeme as the source slice at its
recorded column, because `add_token` is the only way a token is created. -/

theorem take_len_take (l : List Char) (k : Nat) :
    l.take ((l.take k).length) = l.take k := by
  induction l generalizing k with
  | nil => simp
  | cons a as ih =>
    cases k with
    | zero => simp
    | succ n => simp [ih]

theorem inv_of_tokens_eq {src : List Char} {σ σ' : ScSt} (h : TokensInv src σ)
    (he : σ'.tokens = σ.tokens) : TokensInv src σ' := by
  intro t ht
  exact h t (he ▸ ht)

theorem addToken_inv (src : List Char) (σ : ScSt) (ty : TokenType) (lit : Option TokLit)
    (h : TokensInv src σ) : TokensInv src (addToken src σ ty lit) := by
  intro t ht
  simp only [addToken, List.mem_append, List.mem_singleton] at ht
  rcases ht with ht | ht
  · exact h t ht
  · subst ht
    right
    refine ⟨Int.natCast_nonneg σ.start, ?_⟩
    show slice src σ.start σ.current
      = (src.drop ((σ.start : Int)).toNat).take (slice src σ.start σ.current).length
    rw [Int.toNat_natCast]
    unfold slice
    exact (take_len_take _ _).symm

theorem stringBody_tokens (src : List Char) :
    ∀ (f : Nat) (σ : ScSt), (stringBody src f σ).tokens = σ.tokens := by
  intro f
  induction f with
  | zero => intro σ; rfl
  | succ n ih =>
    intro σ
    rw [stringBody]
    split
    · exact ih _
    · rfl

theorem digitsBody_tokens (src : List Char) :
    ∀ (f : Nat) (σ : ScSt), (digitsBody src f σ).tokens = σ.tokens := by
  intro f
  induction f with
  | zero => intro σ; rfl
  | succ n ih =>
    intro σ
    rw [digitsBody]
    split
    · exact ih _
    · rfl

theorem identBody_tokens (src : List Char) :
    ∀ (f : Nat) (σ : ScSt), (identBody src f σ).tokens = σ.tokens := by
  intro f
  induction f with
  | zero => intro σ; rfl
  | succ n ih =>
    intro σ
    rw [identBody]
    split
    · exact ih _
    · rfl

theorem commentBody_tokens (src : List Char) :
    ∀ (f : Nat) (σ : ScSt), (commentBody src f σ).tokens = σ.tokens := by
  intro f
  induction f with
  | zero => intro σ; rfl
  | succ n ih =>
    intro σ
    rw [commentBody]
    split
    · exact ih _
    · rfl

theorem scMatch_snd_tokens (src : List Char) (σ : ScSt) (c : Char) :
    ((scMatch src σ c).2).tokens = σ.tokens := by
  unfold scMatch
  split
  · rfl
  · split <;> rfl

theorem scanString_inv (src : List Char) (σ σ' : ScSt) (h : TokensInv src σ)
    (he : scanString src σ = .ok σ') : TokensInv src σ' := by
  unfold scanString at he
  dsimp only at he
  split at he
  · exact absurd he (by simp)
  · cases he
    apply addToken_inv
    exact inv_of_tokens_eq h (stringBody_tokens src _ σ)

theorem scanNumber_inv (src : List Char) (σ : ScSt) (h : TokensInv src σ) :
    TokensInv src (scanNumber src σ) := by
  unfold scanNumber
  apply addToken_inv
  apply inv_of_tokens_eq h
  rw [digitsBody_tokens]
  split <;> rw [digitsBody_tokens]

theorem scanIdentifier_inv (src : List Char) (σ : ScSt) (h : TokensInv src σ) :
    TokensInv src (scanIdentifier src σ) := by
  unfold scanIdentifier
  dsimp only
  split <;>
  · apply addToken_inv
    exact inv_of_tokens_eq h (identBody_tokens src _ σ)

theorem pres_ok {src : List Char} {σx : ScSt} (hx : TokensInv src σx) :
    ∀ σ' : ScSt, (Except.ok σx : Except ScanErr ScSt) = .ok σ' → TokensInv src σ' := by
  intro σ' he
  cases he
  exact hx

theorem pres_ite {src : List Char} {c : Prop} [Decidable c] {t e : Except ScanErr ScSt}
    (ht : ∀ σ' : ScSt, t = .ok σ' → TokensInv src σ')
    (he2 : ∀ σ' : ScSt, e = .ok σ' → TokensInv src σ') :
    ∀ σ' : ScSt, (if c then t else e) = .ok σ' → TokensInv src σ' := by
  split
  · exact ht
  · exact he2

theorem scanToken_inv (src : List Char) (σ σ' : ScSt) (h : TokensInv src σ)
    (he : scanToken src σ = .ok σ') : TokensInv src σ' := by
  suffices hs : ∀ σ2 : ScSt, scanToken src σ = .ok σ2 → TokensInv src σ2 from hs σ' he
  unfold scanToken
  -- walk the if/elif chain of scan_token branch by branch
  iterate 8 -- single-character tokens ( ) { } , ? : .
    (apply pres_ite
     case _ => exact pres_ok (addToken_inv src _ _ _ (inv_of_tokens_eq h rfl)))
  iterate 2 -- the - and + families
    (apply pres_ite
     case _ =>
       apply pres_ite
       case _ =>
         exact pres_ok (addToken_inv src _ _ _
           (inv_of_tokens_eq h (by simp [scMatch_snd_tokens])))
       apply pres_ite <;>
         exact pres_ok (addToken_inv src _ _ _
           (inv_of_tokens_eq h (by simp [scMatch_snd_tokens]))))
  apply pres_ite -- ;
  case _ => exact pres_ok (addToken_inv src _ _ _ (inv_of_tokens_eq h rfl))
  apply pres_ite -- the * family
  case _ =>
    apply pres_ite <;>
      exact pres_ok (addToken_inv src _ _ _
        (inv_of_tokens_eq h (by simp [scMatch_snd_tokens])))
  iterate 4 -- ! = < > with one-or-two-character lookahead
    (apply pres_ite
     case _ =>
       exact pres_ok (addToken_inv src _ _ _
         (inv_of_tokens_eq h (by simp [scMatch_snd_tokens]))))
  apply pres_ite -- the / family: comment, /=, /
  case _ =>
    apply pres_ite
    case _ =>
      exact pres_ok (inv_of_tokens_eq h
        (by simp [commentBody_tokens, scMatch_snd_tokens]))
    apply pres_ite <;>
      exact pres_ok (addToken_inv src _ _ _
        (inv_of_tokens_eq h (by simp [scMatch_snd_tokens])))
  apply pres_ite -- whitespace
  case _ => exact pres_ok (inv_of_tokens_eq h rfl)
  apply pres_ite -- newline
  case _ => exact pres_ok (inv_of_tokens_eq h rfl)
  apply pres_ite -- string
  case _ =>
    intro σ2 he2
    exact scanString_inv src ⟨σ.tokens, σ.start, σ.current + 1, σ.line⟩ σ2
      (inv_of_tokens_eq h rfl) he2
  apply pres_ite -- number
  case _ => exact pres_ok (scanNumber_inv src _ (inv_of_tokens_eq h rfl))
  apply pres_ite -- identifier, then the unexpected-character fall-through
  case _ => exact pres_ok (scanIdentifier_inv src _ (inv_of_tokens_eq h rfl))
  exact pres_ok (inv_of_tokens_eq h rfl)

theorem scanLoopGo_inv (src : List Char) :
    ∀ (f : Nat) (σ σ' : ScSt), TokensInv src σ → scanLoopGo src f σ = .ok σ' →
      TokensInv src σ' := by
  intro f
  induction f with
  | zero =>
    intro σ σ' h he
    cases he
    exact h
  | succ n ih =>
    intro σ σ' h he
    rw [scanLoopGo] at he
    split at he
    · cases he; exact h
    · split at he
      · exact absurd he (by simp)
      · rename_i σ1 heq
        exact ih σ1 σ' (scanToken_inv src ⟨σ.tokens, σ.current, σ.current, σ.line⟩ σ1 (inv_of_tokens_eq h rfl) heq) he

/-- Claim C5 counterexample: scanning the two-line source `"a\nb"`, the
token `b` is recorded at line 2, column 2 — the column is the ABSOLUTE
offset of `b` in the whole source (`start` at emission time), not the
0-based column within line 2, where `b` sits at column 0.  So the lexeme
does not appear at the recorded column of the recorded line. -/
theorem c5_counterexample :
    scanSource srcAB = .ok
      [⟨.IDENTIFIER, ['a'], none, 1, 0⟩, ⟨.IDENTIFIER, ['b'], none, 2, 2⟩,
       ⟨.EOF, [], none, 2, -1⟩]
    ∧ ¬ tokenAtLineColumn srcAB ⟨.IDENTIFIER, ['b'], none, 2, 2⟩ := by
  exact ⟨rfl, by decide⟩

/-- Claim C5 (corrected): every non-EOF token's recorded column is the
absolute 0-based offset of the token's first character in the WHOLE source
(the scanner stores `start`, an index into the source string, not a
per-line column): its lexeme is exactly the source slice starting at that
offset.  This coincides with the within-line column only for tokens before
the first newline. -/
theorem c5_absolute_column :
    ∀ (src : List Char) (toks : List Token),
      scanSource src = .ok toks →
      ∀ t ∈ toks, t.type ≠ TokenType.EOF →
        0 ≤ t.column ∧ t.lexeme = (src.drop t.column.toNat).take t.lexeme.length := by
  intro src toks he t ht hne
  unfold scanSource at he
  split at he
  · exact absurd he (by simp)
  · rename_i σ heq
    cases he
    have hinv : TokensInv src σ :=
      scanLoopGo_inv src _ _ σ (by intro t2 ht2; simp at ht2) heq
    rcases List.mem_append.mp ht with h1 | h2
    · rcases hinv t h1 with hEOF | hok
      · exact absurd hEOF hne
      · exact hok
    · simp only [List.mem_singleton] at h2
      subst h2
      exact absurd rfl hne

/-- Claim C5 witness: the absolute-offset theorem applied to the source
`"a\nb"` and its second token. -/
theorem c5_witness :
    scanSource srcAB = .ok
      [⟨.IDENTIFIER, ['a'], none, 1, 0⟩, ⟨.IDENTIFIER, ['b'], none, 2, 2⟩,
       ⟨.EOF, [], none, 2, -1⟩]
    ∧ (0 ≤ (⟨.IDENTIFIER, ['b'], none, 2, 2⟩ : Token).column
       ∧ (⟨.IDENTIFIER, ['b'], none, 2, 2⟩ : Token).lexeme
         = (srcAB.drop ((⟨.IDENTIFIER, ['b'], none, 2, 2⟩ : Token).column.toNat)).take
             (⟨.IDENTIFIER, ['b'], none, 2, 2⟩ : Token).lexeme.length) := by
  refine ⟨rfl, ?_⟩
  exact c5_absolute_column srcAB
    [⟨.IDENTIFIER, ['a'], none, 1, 0⟩, ⟨.IDENTIFIER, ['b'], none, 2, 2⟩,
     ⟨.EOF, [], none, 2, -1⟩]
    rfl ⟨.IDENTIFIER, ['b'], none, 2, 2⟩ (by simp) (by decide)

end Lox
